import Mathlib

/-! # A shallow embedding of `wave.go` (RIFF/WAVE decoder)

The Go program parses a RIFF/WAVE container from an `io.Reader` in three
fixed-size stages (`ParseHeader`, `ParseFmtChunk`, `ParseDataChunk`, composed
by `RIFF.Parse`) and then de-interleaves the PCM payload (`RIFF.ParseData`).

Modelling conventions.

* A byte is a `Fin 256`; a byte slice is a `List Byte`.
* Unsigned machine integers are `Nat`; every value stored in a field comes out
  of `beUint32`, `leUint32` or `leUint16`, so it is within its width.
  `int` is taken to be 64 bits wide, so `int(x)` of a `uint32` or `uint16` is `x`.
* An `io.Reader` is a state type `σ` with a read function: given the state and
  the length of the destination slice it answers with the bytes copied into the
  front of the slice, the error value, and the next state.
* A Go function returning `(T, error)` returns a triple value, error, reader state.
* A run-time abort (integer division by zero, index or slice bound out of range)
  is an explicit `Outcome.aborted`.
-/

namespace Wav

/-! ## Bytes, errors and readers -/

abbrev Byte := Fin 256

/-- The error values that occur: `io.EOF`, any other error of a reader, and the
six errors created with `errors.New` in `wave.go`. -/
inductive Error
  | eof
  | source (code : Nat)
  | notRIFF
  | notWAVE
  | notFmt
  | notData
  | sampleRead
  | unsupportedBits
  deriving DecidableEq

/-- The message of each error. -/
def Error.text : Error → String
  | .eof => "EOF"
  | .source _ => "read error"
  | .notRIFF => "not a valid RIFF file"
  | .notWAVE => "not a valid WAVE file"
  | .notFmt => "not a valid fmt chunk"
  | .notData => "not a valid data chunk"
  | .sampleRead => "fail to parse sample data"
  | .unsupportedBits => "unsupported bits per sample"

/-- The answer of one `Read(p)` call: the bytes copied to the front of `p`,
the error, and the reader afterwards. -/
structure ReadResult (σ : Type) where
  bytes : List Byte
  err : Option Error
  next : σ

/-- An `io.Reader` with state `σ`: `rd s n` is `Read(p)` with `len(p) = n`. -/
abbrev Reader (σ : Type) := σ → Nat → ReadResult σ

/-- The byte-buffer source (`bytes.Reader`, `bytes.Buffer`, a regular file): the
state is the unread bytes. With nothing left a read answers `0, io.EOF`;
otherwise it copies as many bytes as fit and answers with a nil error. -/
def bufferRead : Reader (List Byte) := fun s n =>
  match s with
  | [] => ⟨[], some Error.eof, []⟩
  | _ :: _ => ⟨s.take n, none, s.drop n⟩

/-- The slice `buf` after a read copied `got` to its front: the bytes beyond
the copied ones keep their old value. -/
def fill (buf got : List Byte) : List Byte :=
  (got ++ buf.drop got.length).take buf.length

/-- The call `r.Read(buf)`: new content of `buf`, error, reader afterwards. -/
def readInto {σ : Type} (rd : Reader σ) (s : σ) (buf : List Byte) :
    List Byte × Option Error × σ :=
  let r := rd s buf.length
  (fill buf r.bytes, r.err, r.next)

/-- The Go slice expression `b[lo:hi]`. -/
def slice (b : List Byte) (lo hi : Nat) : List Byte :=
  (b.drop lo).take (hi - lo)

/-- The byte `b[i]` widened to an unsigned integer. -/
def byteAt (b : List Byte) (i : Nat) : Nat := (b.getD i 0).val

/-- The function `binary.BigEndian.Uint32`. -/
def beUint32 (b : List Byte) : Nat :=
  byteAt b 3 ||| (byteAt b 2 <<< 8) ||| (byteAt b 1 <<< 16) ||| (byteAt b 0 <<< 24)

/-- The function `binary.LittleEndian.Uint32`. -/
def leUint32 (b : List Byte) : Nat :=
  byteAt b 0 ||| (byteAt b 1 <<< 8) ||| (byteAt b 2 <<< 16) ||| (byteAt b 3 <<< 24)

/-- The function `binary.LittleEndian.Uint16`. -/
def leUint16 (b : List Byte) : Nat :=
  byteAt b 0 ||| (byteAt b 1 <<< 8)

/-- The conversion `int(int8(v))`. -/
def toInt8 (v : Nat) : Int :=
  if v % 2 ^ 8 < 2 ^ 7 then ((v % 2 ^ 8 : Nat) : Int) else ((v % 2 ^ 8 : Nat) : Int) - 2 ^ 8

/-- The conversion `int(int16(v))`. -/
def toInt16 (v : Nat) : Int :=
  if v % 2 ^ 16 < 2 ^ 15 then ((v % 2 ^ 16 : Nat) : Int) else ((v % 2 ^ 16 : Nat) : Int) - 2 ^ 16

/-- The conversion `int(int32(v))`. -/
def toInt32 (v : Nat) : Int :=
  if v % 2 ^ 32 < 2 ^ 31 then ((v % 2 ^ 32 : Nat) : Int) else ((v % 2 ^ 32 : Nat) : Int) - 2 ^ 32

/-! ## The four tags -/

def ID_RIFF : Nat := 0x52494646
def ID_WAVE : Nat := 0x57415645
def ID_fmt : Nat := 0x666d7420
def ID_data : Nat := 0x64617461

/-! ## The container -/

structure Header where
  Id : Nat := 0
  Size : Nat := 0
  Format : Nat := 0
  deriving DecidableEq

structure FmtChunk where
  ID : Nat := 0
  Size : Nat := 0
  AudioFormat : Nat := 0
  Channel : Nat := 0
  SampleRate : Nat := 0
  ByteRate : Nat := 0
  BlockAlign : Nat := 0
  BitsPerSample : Nat := 0
  deriving DecidableEq

/-- The field `Data` is the reader handed back by `ParseDataChunk` (`none` is
the nil interface of the zero value). -/
structure DataChunk (σ : Type) where
  ID : Nat := 0
  Size : Nat := 0
  Data : Option σ := none
  deriving DecidableEq

structure RIFF (σ : Type) where
  Header : Header := {}
  FmtChunk : FmtChunk := {}
  DataChunk : DataChunk σ := {}
  deriving DecidableEq

/-! ## The three fixed-size stages -/

def ParseHeader {σ : Type} (rd : Reader σ) (s : σ) : Header × Option Error × σ :=
  let header : Header := {}
  let buf : List Byte := List.replicate 12 0
  match readInto rd s buf with
  | (_, some e, s1) => (header, some e, s1)
  | (buf, none, s1) =>
    let header := { header with Id := beUint32 (slice buf 0 4) }
    if header.Id ≠ ID_RIFF then (header, some Error.notRIFF, s1)
    else
      let header := { header with Size := leUint32 (slice buf 4 8) }
      let header := { header with Format := beUint32 (slice buf 8 12) }
      if header.Format ≠ ID_WAVE then (header, some Error.notWAVE, s1)
      else (header, none, s1)

def ParseFmtChunk {σ : Type} (rd : Reader σ) (s : σ) : FmtChunk × Option Error × σ :=
  let fm : FmtChunk := {}
  let buf : List Byte := List.replicate 24 0
  match readInto rd s buf with
  | (_, some e, s1) => (fm, some e, s1)
  | (buf, none, s1) =>
    let fm := { fm with ID := beUint32 (slice buf 0 4) }
    if fm.ID ≠ ID_fmt then (fm, some Error.notFmt, s1)
    else
      let fm := { fm with Size := leUint32 (slice buf 4 8) }
      let fm := { fm with AudioFormat := leUint16 (slice buf 8 10) }
      let fm := { fm with Channel := leUint16 (slice buf 10 12) }
      let fm := { fm with SampleRate := leUint32 (slice buf 12 16) }
      let fm := { fm with ByteRate := leUint32 (slice buf 16 20) }
      let fm := { fm with BlockAlign := leUint16 (slice buf 20 22) }
      let fm := { fm with BitsPerSample := leUint16 (slice buf 22 24) }
      (fm, none, s1)

def ParseDataChunk {σ : Type} (rd : Reader σ) (s : σ) : DataChunk σ × Option Error × σ :=
  let dataChunk : DataChunk σ := {}
  let buf : List Byte := List.replicate 8 0
  match readInto rd s buf with
  | (_, some e, s1) => (dataChunk, some e, s1)
  | (buf, none, s1) =>
    let dataChunk := { dataChunk with ID := beUint32 (slice buf 0 4) }
    if dataChunk.ID ≠ ID_data then (dataChunk, some Error.notData, s1)
    else
      let dataChunk := { dataChunk with Size := leUint32 (slice buf 4 8) }
      let dataChunk := { dataChunk with Data := some s1 }
      (dataChunk, none, s1)

/-- The method `(f *RIFF) Parse(r)`: the receiver after the call, the returned
error and the reader afterwards. Each stage's value is assigned to the receiver
before its error is looked at. -/
def RIFF.Parse {σ : Type} (f : RIFF σ) (rd : Reader σ) (s : σ) :
    RIFF σ × Option Error × σ :=
  match ParseHeader rd s with
  | (h, some e, s1) => ({ f with Header := h }, some e, s1)
  | (h, none, s1) =>
    let f := { f with Header := h }
    match ParseFmtChunk rd s1 with
    | (fm, some e, s2) => ({ f with FmtChunk := fm }, some e, s2)
    | (fm, none, s2) =>
      let f := { f with FmtChunk := fm }
      match ParseDataChunk rd s2 with
      | (d, some e, s3) => ({ f with DataChunk := d }, some e, s3)
      | (d, none, s3) => ({ f with DataChunk := d }, none, s3)

/-! ## The sample decoder -/

/-- The run-time aborts of Go that `ParseData` can reach. -/
inductive Panic
  | divideByZero
  | indexOutOfRange
  | sliceBounds
  deriving DecidableEq

/-- How a call ends: it returns an error value (`none` is nil) or it aborts. -/
inductive Outcome
  | returned (err : Option Error)
  | aborted (p : Panic)
  deriving DecidableEq

/-- Integer division of non-negative operands, aborting on a zero divisor. -/
def goDiv (a b : Nat) : Except Panic Nat :=
  if b = 0 then .error Panic.divideByZero else .ok (a / b)

/-- Line 173: `int(Size) / int(Channel) / int(BitsPerSample/8)`. -/
def sampleCount {σ : Type} (f : RIFF σ) : Except Panic Nat :=
  match goDiv f.DataChunk.Size f.FmtChunk.Channel with
  | .error p => .error p
  | .ok q => goDiv q (f.FmtChunk.BitsPerSample / 8)

/-- Lines 174 to 179: `Channel` rows of `sampleCount` zeros each. -/
def allocate (channel count : Nat) : List (List Int) :=
  (List.replicate channel ([] : List Int)).map (fun _ => List.replicate count 0)

/-- The assignment `data[j][i] = v`. -/
def setSample (data : List (List Int)) (j i : Nat) (v : Int) : List (List Int) :=
  data.set j ((data.getD j []).set i v)

/-- The variables the decode loop works on: the channel table, the 4-byte
buffer and the reader. -/
structure Decode (σ : Type) where
  data : List (List Int)
  buf : List Byte
  src : σ

/-- The body of the inner loop (lines 185 to 199) for sample `i` of channel `j`:
the variables afterwards and the error returned from inside the loop, if any. -/
def sampleStep {σ : Type} (rd : Reader σ) (bits i j : Nat) (st : Decode σ) :
    Decode σ × Option Error :=
  match readInto rd st.src st.buf with
  | (buf, err, s1) =>
    let st1 : Decode σ := { st with buf := buf, src := s1 }
    if err ≠ none ∧ err ≠ some Error.eof then (st1, some Error.sampleRead)
    else if bits = 8 then
      ({ st1 with data := setSample st1.data j i (toInt8 (byteAt buf 0)) }, none)
    else if bits = 16 then
      ({ st1 with data := setSample st1.data j i (toInt16 (leUint16 buf)) }, none)
    else if bits = 32 then
      ({ st1 with data := setSample st1.data j i (toInt32 (leUint32 buf)) }, none)
    else (st1, some Error.unsupportedBits)

/-- The inner loop `for j := ...; j < len(data); j++` with `todo = len(data) - j`
iterations still to run. -/
def channelLoop {σ : Type} (rd : Reader σ) (bits i : Nat) :
    Nat → Nat → Decode σ → Decode σ × Option Error
  | 0, _, st => (st, none)
  | todo + 1, j, st =>
    match sampleStep rd bits i j st with
    | (st1, some e) => (st1, some e)
    | (st1, none) => channelLoop rd bits i todo (j + 1) st1

/-- The outer loop `for i := ...; i < sampleCount; i++` with
`todo = sampleCount - i` iterations still to run. -/
def sampleLoop {σ : Type} (rd : Reader σ) (bits : Nat) :
    Nat → Nat → Decode σ → Decode σ × Option Error
  | 0, _, st => (st, none)
  | todo + 1, i, st =>
    match channelLoop rd bits i st.data.length 0 st with
    | (st1, some e) => (st1, some e)
    | (st1, none) => sampleLoop rd bits todo (i + 1) st1

/-- What a call of `ParseData` leaves behind: how it ended, the channel table
`data` at that point and the reader. -/
structure DataResult (σ : Type) where
  outcome : Outcome
  data : List (List Int)
  src : σ

/-- Line 204, `data[0][0:100]`: indexing row 0 and slicing it up to 100, which
needs a capacity of at least 100. -/
def printFirst (data : List (List Int)) : Except Panic Unit :=
  match data with
  | [] => .error Panic.indexOutOfRange
  | row :: _ => if 100 > row.length then .error Panic.sliceBounds else .ok ()

/-- The method `(f *RIFF) ParseData(r)`. The `err` it returns at the end is the
outer variable of line 172, which nothing assigns: the `err` of line 185 is a
new variable of the loop body. -/
def RIFF.ParseData {σ : Type} (f : RIFF σ) (rd : Reader σ) (s : σ) : DataResult σ :=
  match sampleCount f with
  | .error p => ⟨Outcome.aborted p, [], s⟩
  | .ok count =>
    let data := allocate f.FmtChunk.Channel count
    let buf : List Byte := List.replicate 4 0
    match sampleLoop rd f.FmtChunk.BitsPerSample count 0 ⟨data, buf, s⟩ with
    | (st, some e) => ⟨Outcome.returned (some e), st.data, st.src⟩
    | (st, none) =>
      match printFirst st.data with
      | .error p => ⟨Outcome.aborted p, st.data, st.src⟩
      | .ok _ => ⟨Outcome.returned none, st.data, st.src⟩

/-! ## Vocabulary of the specification -/

/-- The bytes of the tag "RIFF". -/
def tagRIFF : List Byte := [0x52, 0x49, 0x46, 0x46]

/-- The bytes of the tag "WAVE". -/
def tagWAVE : List Byte := [0x57, 0x41, 0x56, 0x45]

/-- The bytes of the tag "fmt ". -/
def tagFmt : List Byte := [0x66, 0x6d, 0x74, 0x20]

/-- The bytes of the tag "data". -/
def tagData : List Byte := [0x64, 0x61, 0x74, 0x61]

/-- Follows the spec's words: the little-endian unsigned 32-bit integer stored
at offset `off` of `src`. -/
def u32LEAt (src : List Byte) (off : Nat) : Nat :=
  byteAt src off + 2 ^ 8 * byteAt src (off + 1) + 2 ^ 16 * byteAt src (off + 2)
    + 2 ^ 24 * byteAt src (off + 3)

/-- Follows the spec's words: the little-endian unsigned 16-bit integer stored
at offset `off` of `src`. -/
def u16LEAt (src : List Byte) (off : Nat) : Nat :=
  byteAt src off + 2 ^ 8 * byteAt src (off + 1)

/-- Follows the spec's words: the four bytes at offset `off` of `src` read
high byte first. -/
def u32BEAt (src : List Byte) (off : Nat) : Nat :=
  2 ^ 24 * byteAt src off + 2 ^ 16 * byteAt src (off + 1) + 2 ^ 8 * byteAt src (off + 2)
    + byteAt src (off + 3)

/-- The end-to-end example of the specification: the 44 header bytes followed
by the four 16-bit samples 0x0001, 0x0002, 0xFFFF, 0x0004. -/
def specFile : List Byte :=
  [0x52, 0x49, 0x46, 0x46, 36, 0, 0, 0, 0x57, 0x41, 0x56, 0x45,
   0x66, 0x6d, 0x74, 0x20, 16, 0, 0, 0, 1, 0, 2, 0, 0x44, 0xAC, 0, 0,
   0x10, 0xB1, 0x02, 0, 4, 0, 16, 0,
   0x64, 0x61, 0x74, 0x61, 8, 0, 0, 0,
   1, 0, 2, 0, 0xFF, 0xFF, 4, 0]


/-- An error value that does not make the decode loop return: nil or `io.EOF`
(the negation of the test on line 186). -/
def benign (e : Option Error) : Prop := e = none ∨ e = some Error.eof

instance (e : Option Error) : Decidable (benign e) := by
  unfold benign
  exact inferInstance

/-- The reader after `k` reads into the 4-byte sample buffer. -/
def srcAfter {σ : Type} (rd : Reader σ) : Nat → σ → σ
  | 0, s => s
  | k + 1, s => srcAfter rd k (rd s 4).next

/-- The error reported by read number `k` (counted from 0) of a run of reads
into the 4-byte sample buffer that starts in state `s`. -/
def errAt {σ : Type} (rd : Reader σ) (s : σ) (k : Nat) : Option Error :=
  (rd (srcAfter rd k s) 4).err

/-- Follows the spec's words: the native signed range of a bit depth. -/
def inRange (bits : Nat) (v : Int) : Prop :=
  (bits = 8 → -128 ≤ v ∧ v ≤ 127) ∧
  (bits = 16 → -32768 ≤ v ∧ v ≤ 32767) ∧
  (bits = 32 → -2147483648 ≤ v ∧ v ≤ 2147483647)

/-- A source that plays back a fixed list of answers, one per read, and reports
end-of-stream once the list is used up. -/
def scriptRead : Reader (List (List Byte × Option Error)) := fun s n =>
  match s with
  | [] => ⟨[], some Error.eof, []⟩
  | (bytes, err) :: rest => ⟨bytes.take n, err, rest⟩

/-- A container with the given channel count, bit depth and declared data size,
all other fields zero. -/
def container (σ : Type) (channel bits size : Nat) : RIFF σ :=
  { FmtChunk := { Channel := channel, BitsPerSample := bits }, DataChunk := { Size := size } }

/-- Every entry of the table is in the range of the bit depth. -/
def TableInRange (bits : Nat) (data : List (List Int)) : Prop :=
  ∀ row ∈ data, ∀ v ∈ row, inRange bits v

/-- Every row of the table has `count` entries. -/
def Shaped (count : Nat) (data : List (List Int)) : Prop :=
  ∀ row ∈ data, row.length = count

/-- The source `src` with zero bytes appended up to a length of `n`. -/
def padZeros (n : Nat) (src : List Byte) : List Byte :=
  src ++ List.replicate (n - src.length) 0

/-- The value the switch of lines 189 to 199 stores from the buffer `buf` when
the bit depth is 8, 16 or 32. -/
def decodeSample (bits : Nat) (buf : List Byte) : Int :=
  if bits = 8 then toInt8 (byteAt buf 0)
  else if bits = 16 then toInt16 (leUint16 buf)
  else toInt32 (leUint32 buf)

/-- Follows the spec's words: the unsigned `w`-bit integer `v` interpreted as a
signed (two's complement) integer. -/
def signedOf (w v : Nat) : Int :=
  if v < 2 ^ (w - 1) then (v : Int) else (v : Int) - 2 ^ w

/-- Follows the spec's words: the signed little-endian integer of width
`bits/8` bytes stored at offset `off` of `src`, for a bit depth of 8, 16 or 32. -/
def signedLEAt (bits : Nat) (src : List Byte) (off : Nat) : Int :=
  if bits = 8 then signedOf 8 (byteAt src off)
  else if bits = 16 then signedOf 16 (u16LEAt src off)
  else signedOf 32 (u32LEAt src off)

/-- Sample `i` of channel `j` of a channel table, `data[j][i]`. -/
def entry (data : List (List Int)) (j i : Nat) : Int := (data.getD j []).getD i 0

/-! ## Bytes assembled into integers -/

theorem lor_shift (x a i : Nat) (h : x < 2 ^ i) : x ||| (a <<< i) = x + a * 2 ^ i := by
  rw [Nat.shiftLeft_eq, Nat.or_comm, Nat.mul_comm a, ← Nat.mul_add_lt_is_or h, Nat.add_comm]

theorem byteAt_lt (b : List Byte) (i : Nat) : byteAt b i < 256 := (b.getD i 0).isLt

theorem leUint16_eq (b : List Byte) : leUint16 b = byteAt b 0 + byteAt b 1 * 2 ^ 8 := by
  have h0 := byteAt_lt b 0
  unfold leUint16
  rw [lor_shift _ _ _ (by omega)]

theorem leUint32_eq (b : List Byte) :
    leUint32 b = byteAt b 0 + byteAt b 1 * 2 ^ 8 + byteAt b 2 * 2 ^ 16 + byteAt b 3 * 2 ^ 24 := by
  have h0 := byteAt_lt b 0
  have h1 := byteAt_lt b 1
  have h2 := byteAt_lt b 2
  unfold leUint32
  rw [lor_shift _ _ 8 (by omega), lor_shift _ _ 16 (by omega), lor_shift _ _ 24 (by omega)]

theorem beUint32_eq (b : List Byte) :
    beUint32 b = byteAt b 3 + byteAt b 2 * 2 ^ 8 + byteAt b 1 * 2 ^ 16 + byteAt b 0 * 2 ^ 24 := by
  have h3 := byteAt_lt b 3
  have h2 := byteAt_lt b 2
  have h1 := byteAt_lt b 1
  unfold beUint32
  rw [lor_shift _ _ 8 (by omega), lor_shift _ _ 16 (by omega), lor_shift _ _ 24 (by omega)]

/-- A four-byte tag read big-endian equals the tag constant exactly when the
four bytes are the constant's bytes. -/
theorem beUint32_eq_iff (b : List Byte) (hb : b.length = 4) (t0 t1 t2 t3 : Byte) :
    beUint32 b = t3.val + t2.val * 2 ^ 8 + t1.val * 2 ^ 16 + t0.val * 2 ^ 24 ↔
      b = [t0, t1, t2, t3] := by
  match b, hb with
  | [b0, b1, b2, b3], _ =>
    rw [beUint32_eq]
    simp only [byteAt, List.getD_cons_zero, List.getD_cons_succ]
    constructor
    · intro h
      have e0 : b0 = t0 := Fin.ext (by omega)
      have e1 : b1 = t1 := Fin.ext (by omega)
      have e2 : b2 = t2 := Fin.ext (by omega)
      have e3 : b3 = t3 := Fin.ext (by omega)
      rw [e0, e1, e2, e3]
    · intro h
      injection h with e0 h
      injection h with e1 h
      injection h with e2 h
      injection h with e3 h
      rw [e0, e1, e2, e3]

/-! ## Slices of a byte buffer -/

theorem slice_length (b : List Byte) (lo hi : Nat) (h : hi ≤ b.length) :
    (slice b lo hi).length = hi - lo := by
  simp [slice]; omega

theorem slice_take (b : List Byte) (n lo hi : Nat) (h : hi ≤ n) :
    slice (b.take n) lo hi = slice b lo hi := by
  unfold slice
  rw [List.drop_take, List.take_take, Nat.min_eq_left (by omega)]

theorem slice_drop (b : List Byte) (k lo hi : Nat) :
    slice (b.drop k) lo hi = slice b (k + lo) (k + hi) := by
  unfold slice
  rw [List.drop_drop, Nat.add_sub_add_left]

theorem fill_zeros (got : List Byte) (n : Nat) (h : got.length = n) :
    fill (List.replicate n 0) got = got := by
  unfold fill
  rw [List.length_replicate, List.take_left' h]

/-- A byte buffer holding at least `n > 0` bytes answers a read of `n` bytes
with its first `n` bytes and no error. -/
theorem readInto_buffer (src : List Byte) (n : Nat) (hn : 0 < n) (h : n ≤ src.length) :
    readInto bufferRead src (List.replicate n 0) = (src.take n, none, src.drop n) := by
  match src, h with
  | [], h => simp at h; omega
  | x :: xs, h =>
    simp only [readInto, bufferRead, List.length_replicate]
    rw [fill_zeros _ n (by rw [List.length_take]; omega)]

theorem byteAt_slice (b : List Byte) (lo hi i : Nat) (h : lo + i < hi) :
    byteAt (slice b lo hi) i = byteAt b (lo + i) := by
  unfold byteAt slice
  rw [List.getD_eq_getElem?_getD, List.getD_eq_getElem?_getD, List.getElem?_take,
    if_pos (by omega), List.getElem?_drop]

theorem leUint32_slice (b : List Byte) (lo hi : Nat) (h : lo + 4 ≤ hi) :
    leUint32 (slice b lo hi) = u32LEAt b lo := by
  rw [leUint32_eq, u32LEAt, byteAt_slice _ _ _ 0 (by omega), byteAt_slice _ _ _ 1 (by omega),
    byteAt_slice _ _ _ 2 (by omega), byteAt_slice _ _ _ 3 (by omega)]
  simp only [Nat.add_zero]
  omega

theorem leUint16_slice (b : List Byte) (lo hi : Nat) (h : lo + 2 ≤ hi) :
    leUint16 (slice b lo hi) = u16LEAt b lo := by
  rw [leUint16_eq, u16LEAt, byteAt_slice _ _ _ 0 (by omega), byteAt_slice _ _ _ 1 (by omega)]
  simp only [Nat.add_zero]
  omega

theorem beUint32_slice (b : List Byte) (lo hi : Nat) (h : lo + 4 ≤ hi) :
    beUint32 (slice b lo hi) = u32BEAt b lo := by
  rw [beUint32_eq, u32BEAt, byteAt_slice _ _ _ 0 (by omega), byteAt_slice _ _ _ 1 (by omega),
    byteAt_slice _ _ _ 2 (by omega), byteAt_slice _ _ _ 3 (by omega)]
  simp only [Nat.add_zero]
  omega

theorem byteAt_drop (b : List Byte) (k i : Nat) : byteAt (b.drop k) i = byteAt b (k + i) := by
  unfold byteAt
  rw [List.getD_eq_getElem?_getD, List.getD_eq_getElem?_getD, List.getElem?_drop]

theorem tag_RIFF_iff (b : List Byte) (hb : b.length = 4) : beUint32 b = ID_RIFF ↔ b = tagRIFF :=
  beUint32_eq_iff b hb 0x52 0x49 0x46 0x46

theorem tag_WAVE_iff (b : List Byte) (hb : b.length = 4) : beUint32 b = ID_WAVE ↔ b = tagWAVE :=
  beUint32_eq_iff b hb 0x57 0x41 0x56 0x45

theorem tag_fmt_iff (b : List Byte) (hb : b.length = 4) : beUint32 b = ID_fmt ↔ b = tagFmt :=
  beUint32_eq_iff b hb 0x66 0x6d 0x74 0x20

theorem tag_data_iff (b : List Byte) (hb : b.length = 4) : beUint32 b = ID_data ↔ b = tagData :=
  beUint32_eq_iff b hb 0x64 0x61 0x74 0x61

/-- The header stage on a byte buffer holding at least 12 bytes. -/
theorem ParseHeader_buffer (src : List Byte) (h : 12 ≤ src.length) :
    ParseHeader bufferRead src =
      if slice src 0 4 ≠ tagRIFF then
        ({ Id := u32BEAt src 0 }, some Error.notRIFF, src.drop 12)
      else if slice src 8 12 ≠ tagWAVE then
        ({ Id := ID_RIFF, Size := u32LEAt src 4, Format := u32BEAt src 8 },
          some Error.notWAVE, src.drop 12)
      else ({ Id := ID_RIFF, Size := u32LEAt src 4, Format := ID_WAVE }, none, src.drop 12) := by
  have t0 := tag_RIFF_iff (slice src 0 4) (slice_length _ _ _ (by omega))
  have t8 := tag_WAVE_iff (slice src 8 12) (slice_length _ _ _ (by omega))
  rw [beUint32_slice _ _ _ (by omega)] at t0 t8
  unfold ParseHeader
  dsimp only
  rw [readInto_buffer src 12 (by omega) h]
  by_cases h0 : slice src 0 4 = tagRIFF
  · have e0 := t0.2 h0
    rw [if_neg (not_not.mpr h0)]
    by_cases h8 : slice src 8 12 = tagWAVE
    · have e8 := t8.2 h8
      rw [if_neg (not_not.mpr h8)]
      simp [slice_take, leUint32_slice, beUint32_slice, e0, e8]
    · have e8 : ¬ u32BEAt src 8 = ID_WAVE := fun e => h8 (t8.1 e)
      rw [if_pos h8]
      simp [slice_take, leUint32_slice, beUint32_slice, e0, e8]
  · have e0 : ¬ u32BEAt src 0 = ID_RIFF := fun e => h0 (t0.1 e)
    rw [if_pos h0]
    simp [slice_take, beUint32_slice, e0]

/-- The format stage on a byte buffer holding at least 24 bytes. -/
theorem ParseFmtChunk_buffer (src : List Byte) (h : 24 ≤ src.length) :
    ParseFmtChunk bufferRead src =
      if slice src 0 4 ≠ tagFmt then
        ({ ID := u32BEAt src 0 }, some Error.notFmt, src.drop 24)
      else
        ({ ID := ID_fmt, Size := u32LEAt src 4, AudioFormat := u16LEAt src 8,
           Channel := u16LEAt src 10, SampleRate := u32LEAt src 12, ByteRate := u32LEAt src 16,
           BlockAlign := u16LEAt src 20, BitsPerSample := u16LEAt src 22 }, none, src.drop 24) := by
  have t0 := tag_fmt_iff (slice src 0 4) (slice_length _ _ _ (by omega))
  rw [beUint32_slice _ _ _ (by omega)] at t0
  unfold ParseFmtChunk
  dsimp only
  rw [readInto_buffer src 24 (by omega) h]
  by_cases h0 : slice src 0 4 = tagFmt
  · have e0 := t0.2 h0
    rw [if_neg (not_not.mpr h0)]
    simp [slice_take, leUint32_slice, leUint16_slice, beUint32_slice, e0]
  · have e0 : ¬ u32BEAt src 0 = ID_fmt := fun e => h0 (t0.1 e)
    rw [if_pos h0]
    simp [slice_take, beUint32_slice, e0]

/-- The data stage on a byte buffer holding at least 8 bytes. -/
theorem ParseDataChunk_buffer (src : List Byte) (h : 8 ≤ src.length) :
    ParseDataChunk bufferRead src =
      if slice src 0 4 ≠ tagData then
        ({ ID := u32BEAt src 0 }, some Error.notData, src.drop 8)
      else
        ({ ID := ID_data, Size := u32LEAt src 4, Data := some (src.drop 8) }, none,
          src.drop 8) := by
  have t0 := tag_data_iff (slice src 0 4) (slice_length _ _ _ (by omega))
  rw [beUint32_slice _ _ _ (by omega)] at t0
  unfold ParseDataChunk
  dsimp only
  rw [readInto_buffer src 8 (by omega) h]
  by_cases h0 : slice src 0 4 = tagData
  · have e0 := t0.2 h0
    rw [if_neg (not_not.mpr h0)]
    simp [slice_take, leUint32_slice, beUint32_slice, e0]
  · have e0 : ¬ u32BEAt src 0 = ID_data := fun e => h0 (t0.1 e)
    rw [if_pos h0]
    simp [slice_take, beUint32_slice, e0]

theorem u32LEAt_drop (b : List Byte) (k off : Nat) :
    u32LEAt (b.drop k) off = u32LEAt b (k + off) := by
  simp only [u32LEAt, byteAt_drop, Nat.add_assoc]

theorem u16LEAt_drop (b : List Byte) (k off : Nat) :
    u16LEAt (b.drop k) off = u16LEAt b (k + off) := by
  simp only [u16LEAt, byteAt_drop, Nat.add_assoc]

theorem u32BEAt_drop (b : List Byte) (k off : Nat) :
    u32BEAt (b.drop k) off = u32BEAt b (k + off) := by
  simp only [u32BEAt, byteAt_drop, Nat.add_assoc]

/-- The format stage run on a byte buffer from offset 12 on. -/
theorem ParseFmtChunk_at12 (src : List Byte) (h : 36 ≤ src.length) :
    ParseFmtChunk bufferRead (src.drop 12) =
      if slice src 12 16 ≠ tagFmt then
        ({ ID := u32BEAt src 12 }, some Error.notFmt, src.drop 36)
      else
        ({ ID := ID_fmt, Size := u32LEAt src 16, AudioFormat := u16LEAt src 20,
           Channel := u16LEAt src 22, SampleRate := u32LEAt src 24, ByteRate := u32LEAt src 28,
           BlockAlign := u16LEAt src 32, BitsPerSample := u16LEAt src 34 }, none, src.drop 36) := by
  rw [ParseFmtChunk_buffer (src.drop 12) (by rw [List.length_drop]; omega)]
  simp only [slice_drop, u32LEAt_drop, u16LEAt_drop, u32BEAt_drop, List.drop_drop]

/-- The data stage run on a byte buffer from offset 36 on. -/
theorem ParseDataChunk_at36 (src : List Byte) (h : 44 ≤ src.length) :
    ParseDataChunk bufferRead (src.drop 36) =
      if slice src 36 40 ≠ tagData then
        ({ ID := u32BEAt src 36 }, some Error.notData, src.drop 44)
      else
        ({ ID := ID_data, Size := u32LEAt src 40, Data := some (src.drop 44) }, none,
          src.drop 44) := by
  rw [ParseDataChunk_buffer (src.drop 36) (by rw [List.length_drop]; omega)]
  simp only [slice_drop, u32LEAt_drop, u32BEAt_drop, List.drop_drop]

/-- C2: on a byte buffer of at least 44 bytes whose four tags are right, `Parse`
returns no error, every field holds the integer found at its fixed offset
(little-endian for the numeric fields, the tag constants for the four ids),
`DataChunk.Data` is the source positioned after the 44 header bytes, and the
source has been read up to offset 44. -/
theorem C2_parse_fills_fields (f : RIFF (List Byte)) (src : List Byte)
    (hlen : 44 ≤ src.length)
    (hRIFF : slice src 0 4 = tagRIFF) (hWAVE : slice src 8 12 = tagWAVE)
    (hfmt : slice src 12 16 = tagFmt) (hdata : slice src 36 40 = tagData) :
    f.Parse bufferRead src =
      ({ Header := { Id := 0x52494646, Size := u32LEAt src 4, Format := 0x57415645 },
         FmtChunk := { ID := 0x666d7420, Size := u32LEAt src 16, AudioFormat := u16LEAt src 20,
                       Channel := u16LEAt src 22, SampleRate := u32LEAt src 24,
                       ByteRate := u32LEAt src 28, BlockAlign := u16LEAt src 32,
                       BitsPerSample := u16LEAt src 34 },
         DataChunk := { ID := 0x64617461, Size := u32LEAt src 40, Data := some (src.drop 44) } },
       none, src.drop 44) := by
  unfold RIFF.Parse
  rw [ParseHeader_buffer src (by omega), if_neg (not_not.mpr hRIFF), if_neg (not_not.mpr hWAVE)]
  dsimp only
  rw [ParseFmtChunk_at12 src (by omega), if_neg (not_not.mpr hfmt)]
  dsimp only
  rw [ParseDataChunk_at36 src hlen, if_neg (not_not.mpr hdata)]
  rfl

/-- C2 at the specification's 44-byte header: two channels, 44100 Hz, byte rate
176400, block align 4, 16 bits per sample, 8 payload bytes. -/
theorem C2_parse_fills_fields_witness :
    (RIFF.Parse {} bufferRead specFile).1.FmtChunk.Channel = 2 ∧
    (RIFF.Parse {} bufferRead specFile).1.FmtChunk.SampleRate = 44100 ∧
    (RIFF.Parse {} bufferRead specFile).1.FmtChunk.ByteRate = 176400 ∧
    (RIFF.Parse {} bufferRead specFile).1.FmtChunk.BlockAlign = 4 ∧
    (RIFF.Parse {} bufferRead specFile).1.FmtChunk.BitsPerSample = 16 ∧
    (RIFF.Parse {} bufferRead specFile).1.DataChunk.Size = 8 ∧
    (RIFF.Parse {} bufferRead specFile).2.1 = none := by
  rw [C2_parse_fills_fields {} specFile (by decide) (by decide) (by decide) (by decide)
    (by decide)]
  decide

/-- C3: on a byte buffer of at least 44 bytes `Parse` fails exactly when one of
the four tags is wrong, and the error is the one of the first wrong tag in the
order "RIFF" (bytes 0-3), "WAVE" (bytes 8-11), "fmt " (bytes 12-15), "data"
(bytes 36-39); the outcome depends on no other byte of the source. -/
theorem C3_parse_fails_iff_tag_wrong (f : RIFF (List Byte)) (src : List Byte)
    (hlen : 44 ≤ src.length) :
    ((f.Parse bufferRead src).2.1 ≠ none ↔
      (slice src 0 4 ≠ tagRIFF ∨ slice src 8 12 ≠ tagWAVE ∨ slice src 12 16 ≠ tagFmt ∨
        slice src 36 40 ≠ tagData)) ∧
    (f.Parse bufferRead src).2.1 =
      (if slice src 0 4 ≠ tagRIFF then some Error.notRIFF
       else if slice src 8 12 ≠ tagWAVE then some Error.notWAVE
       else if slice src 12 16 ≠ tagFmt then some Error.notFmt
       else if slice src 36 40 ≠ tagData then some Error.notData
       else none) := by
  have key : (f.Parse bufferRead src).2.1 =
      (if slice src 0 4 ≠ tagRIFF then some Error.notRIFF
       else if slice src 8 12 ≠ tagWAVE then some Error.notWAVE
       else if slice src 12 16 ≠ tagFmt then some Error.notFmt
       else if slice src 36 40 ≠ tagData then some Error.notData
       else none) := by
    unfold RIFF.Parse
    rw [ParseHeader_buffer src (by omega)]
    by_cases h0 : slice src 0 4 = tagRIFF
    · rw [if_neg (not_not.mpr h0), if_neg (not_not.mpr h0)]
      by_cases h8 : slice src 8 12 = tagWAVE
      · rw [if_neg (not_not.mpr h8), if_neg (not_not.mpr h8)]
        dsimp only
        rw [ParseFmtChunk_at12 src (by omega)]
        by_cases h12 : slice src 12 16 = tagFmt
        · rw [if_neg (not_not.mpr h12), if_neg (not_not.mpr h12)]
          dsimp only
          rw [ParseDataChunk_at36 src hlen]
          by_cases h36 : slice src 36 40 = tagData
          · rw [if_neg (not_not.mpr h36), if_neg (not_not.mpr h36)]
          · rw [if_pos h36, if_pos h36]
        · rw [if_pos h12, if_pos h12]
      · rw [if_pos h8, if_pos h8]
    · rw [if_pos h0, if_pos h0]
  refine ⟨?_, key⟩
  rw [key]
  by_cases h0 : slice src 0 4 = tagRIFF <;> by_cases h8 : slice src 8 12 = tagWAVE <;>
    by_cases h12 : slice src 12 16 = tagFmt <;> by_cases h36 : slice src 36 40 = tagData <;>
    simp [h0, h8, h12, h36]

/-- C3 at the specification's example with its "fmt " tag turned into "fmt_" and
its "data" tag into "dat_": the error is the one of the "fmt " tag. -/
theorem C3_parse_fails_iff_tag_wrong_witness :
    (RIFF.Parse {} bufferRead ((specFile.set 15 0x5f).set 39 0x5f)).2.1 = some Error.notFmt := by
  rw [(C3_parse_fails_iff_tag_wrong {} ((specFile.set 15 0x5f).set 39 0x5f) (by decide)).2]
  decide

/-- C4: on a byte buffer of at least 12 bytes whose first four bytes are not
"RIFF", `Parse` fails with the container-tag error, has consumed exactly the
first 12 bytes (the source is left at offset 12, where the format chunk would
start), has stored only the tag it read in `Header.Id`, and leaves `FmtChunk`
and `DataChunk` as they were: the later stages did not run. -/
theorem C4_bad_leading_tag (f : RIFF (List Byte)) (src : List Byte)
    (hlen : 12 ≤ src.length) (hbad : slice src 0 4 ≠ tagRIFF) :
    f.Parse bufferRead src =
      ({ Header := { Id := u32BEAt src 0, Size := 0, Format := 0 },
         FmtChunk := f.FmtChunk, DataChunk := f.DataChunk },
       some Error.notRIFF, src.drop 12) ∧
    Error.notRIFF.text = "not a valid RIFF file" := by
  refine ⟨?_, rfl⟩
  unfold RIFF.Parse
  rw [ParseHeader_buffer src hlen, if_pos hbad]

/-- C4 at the specification's example with "RIFX" as leading tag: the error is
the container-tag error and the 40 bytes from offset 12 on are unread. -/
theorem C4_bad_leading_tag_witness :
    (RIFF.Parse {} bufferRead (specFile.set 3 0x58)).2.1 = some Error.notRIFF ∧
    (RIFF.Parse {} bufferRead (specFile.set 3 0x58)).2.2 = specFile.drop 12 := by
  rw [(C4_bad_leading_tag {} (specFile.set 3 0x58) (by decide) (by decide)).1]
  decide

/-- C1 (the code departs from the claim): on the specification's end-to-end
example (two channels, 16 bits, declared size 8, payload
01 00 02 00 FF FF 04 00) the channel table `ParseData` builds is
`[[1, -1], [-1, -1]]`, not `[[1, -1], [2, 4]]`: every read fills the 4-byte
buffer, so a 16-bit sample uses up 4 payload bytes, the payload is exhausted
after two samples and the last two are decoded from the stale buffer. -/
theorem C1_spec_example_decodes_wrong :
    ((RIFF.Parse {} bufferRead specFile).1.ParseData bufferRead
        (RIFF.Parse {} bufferRead specFile).2.2).data = [[1, -1], [-1, -1]] ∧
    ((RIFF.Parse {} bufferRead specFile).1.ParseData bufferRead
        (RIFF.Parse {} bufferRead specFile).2.2).data ≠ [[1, -1], [2, 4]] := by
  decide

/-! ## The decode loop -/

theorem fill_length (buf got : List Byte) : (fill buf got).length = buf.length := by
  unfold fill
  rw [List.length_take, List.length_append, List.length_drop]
  omega

theorem setSample_length (data : List (List Int)) (j i : Nat) (v : Int) :
    (setSample data j i v).length = data.length := by
  unfold setSample
  rw [List.length_set]

theorem sampleCount_ok {σ : Type} (f : RIFF σ) (hch : 1 ≤ f.FmtChunk.Channel)
    (hbits : 8 ≤ f.FmtChunk.BitsPerSample) :
    sampleCount f =
      .ok (f.DataChunk.Size / f.FmtChunk.Channel / (f.FmtChunk.BitsPerSample / 8)) := by
  have hw : f.FmtChunk.BitsPerSample / 8 ≠ 0 := by omega
  have hc : f.FmtChunk.Channel ≠ 0 := by omega
  simp [sampleCount, goDiv, hw, hc]

theorem allocate_length (channel count : Nat) : (allocate channel count).length = channel := by
  simp [allocate]

/-- C6: for a channel count of at least 1 and a bit depth of at least 8 the
count of line 173 is `declared_size / channel_count / (bits_per_sample/8)`
(no division by zero), it fits the declared size, and it is the largest count
that does. -/
theorem C6_sample_count_bounds {σ : Type} (f : RIFF σ) (n : Nat)
    (hch : 1 ≤ f.FmtChunk.Channel) (hbits : 8 ≤ f.FmtChunk.BitsPerSample)
    (hn : n = f.DataChunk.Size / f.FmtChunk.Channel / (f.FmtChunk.BitsPerSample / 8)) :
    sampleCount f = .ok n ∧
    n * f.FmtChunk.Channel * (f.FmtChunk.BitsPerSample / 8) ≤ f.DataChunk.Size ∧
    f.DataChunk.Size < (n + 1) * f.FmtChunk.Channel * (f.FmtChunk.BitsPerSample / 8) := by
  have hw : 0 < f.FmtChunk.BitsPerSample / 8 := by omega
  have hpos : 0 < f.FmtChunk.Channel * (f.FmtChunk.BitsPerSample / 8) := Nat.mul_pos hch hw
  have hdiv : n = f.DataChunk.Size / (f.FmtChunk.Channel * (f.FmtChunk.BitsPerSample / 8)) := by
    rw [hn, Nat.div_div_eq_div_mul]
  refine ⟨by rw [hn]; exact sampleCount_ok f hch hbits, ?_, ?_⟩
  · rw [Nat.mul_assoc, hdiv]
    exact Nat.div_mul_le_self _ _
  · rw [Nat.mul_assoc, hdiv, Nat.mul_comm]
    exact Nat.lt_mul_div_succ _ hpos

/-- C6 at declared size 9, two channels, 16 bits: the count is 2, and
2 * 2 * 2 = 8 ≤ 9 < 12 = 3 * 2 * 2. -/
theorem C6_sample_count_bounds_witness :
    sampleCount (container Unit 2 16 9) = .ok 2 ∧ 2 * 2 * (16 / 8) ≤ 9 ∧
      9 < (2 + 1) * 2 * (16 / 8) :=
  C6_sample_count_bounds (container Unit 2 16 9) 2 (by decide) (by decide) (by decide)

/-! ## Unsupported bit depths -/

/-- C5 as stated fails: with bit depth 24 `ParseData` does not return the
bit-depth error when the channel count is 0 (the count of line 173 divides by
zero), nor when the declared size gives a sample count of 0 (the loop body,
where the bit depth is looked at, never runs, and line 204 aborts); with a bit
depth below 8, here 7, the count divides by zero as well. -/
theorem C5_counterexample :
    ((container (List Byte) 0 24 6).ParseData bufferRead [1, 2, 3, 4, 5, 6]).outcome
      = Outcome.aborted Panic.divideByZero ∧
    ((container (List Byte) 1 24 0).ParseData bufferRead [1, 2, 3, 4, 5, 6]).outcome
      = Outcome.aborted Panic.sliceBounds ∧
    ((container (List Byte) 1 7 6).ParseData bufferRead [1, 2, 3, 4, 5, 6]).outcome
      = Outcome.aborted Panic.divideByZero := by
  decide

/-- C5 amended: with a channel count of at least 1, a bit depth of at least 8
other than 8, 16 and 32, a sample count of at least 1, and a first read that
reports nil or end-of-stream, `ParseData` returns the bit-depth error after
that single read, and the channel table holds no decoded sample: it is the
table as allocated, every entry 0. -/
theorem C5_unsupported_bit_depth {σ : Type} (f : RIFF σ) (rd : Reader σ) (s : σ)
    (hch : 1 ≤ f.FmtChunk.Channel) (hbits : 8 ≤ f.FmtChunk.BitsPerSample)
    (h8 : f.FmtChunk.BitsPerSample ≠ 8) (h16 : f.FmtChunk.BitsPerSample ≠ 16)
    (h32 : f.FmtChunk.BitsPerSample ≠ 32)
    (hn : 1 ≤ f.DataChunk.Size / f.FmtChunk.Channel / (f.FmtChunk.BitsPerSample / 8))
    (hrd : benign (rd s 4).err) :
    (f.ParseData rd s).outcome = Outcome.returned (some Error.unsupportedBits) ∧
    Error.unsupportedBits.text = "unsupported bits per sample" ∧
    (f.ParseData rd s).data = allocate f.FmtChunk.Channel
      (f.DataChunk.Size / f.FmtChunk.Channel / (f.FmtChunk.BitsPerSample / 8)) ∧
    (∀ row ∈ (f.ParseData rd s).data, ∀ v ∈ row, v = 0) ∧
    (f.ParseData rd s).src = (rd s 4).next := by
  obtain ⟨n, hn'⟩ : ∃ n, f.DataChunk.Size / f.FmtChunk.Channel /
      (f.FmtChunk.BitsPerSample / 8) = n + 1 := ⟨_, (Nat.succ_pred_eq_of_pos hn).symm⟩
  obtain ⟨c, hc⟩ : ∃ c, f.FmtChunk.Channel = c + 1 := ⟨_, (Nat.succ_pred_eq_of_pos hch).symm⟩
  have hnb : ¬ ((rd s 4).err ≠ none ∧ (rd s 4).err ≠ some Error.eof) := by
    rcases hrd with h | h <;> simp [h]
  have hrun : f.ParseData rd s =
      ⟨Outcome.returned (some Error.unsupportedBits),
        allocate f.FmtChunk.Channel (n + 1), (rd s 4).next⟩ := by
    unfold RIFF.ParseData
    rw [sampleCount_ok f hch hbits, hn']
    simp only [sampleLoop, allocate_length]
    rw [hc]
    simp only [channelLoop, sampleStep, readInto, List.length_replicate, if_neg hnb, if_neg h8,
      if_neg h16, if_neg h32]
  rw [hrun, hn']
  refine ⟨rfl, rfl, rfl, ?_, rfl⟩
  intro row hrow v hv
  simp only [allocate, List.mem_map, List.mem_replicate] at hrow
  obtain ⟨_, _, rfl⟩ := hrow
  exact (List.mem_replicate.1 hv).2

/-- C5 amended, at bit depth 24, one channel, declared size 6 and the payload
01 02 03 04 05 06: the bit-depth error, and a table of two zeros. -/
theorem C5_unsupported_bit_depth_witness :
    ((container (List Byte) 1 24 6).ParseData bufferRead [1, 2, 3, 4, 5, 6]).outcome
      = Outcome.returned (some Error.unsupportedBits) ∧
    ((container (List Byte) 1 24 6).ParseData bufferRead [1, 2, 3, 4, 5, 6]).data = [[0, 0]] :=
  have h := C5_unsupported_bit_depth (container (List Byte) 1 24 6) bufferRead
    [1, 2, 3, 4, 5, 6] (by decide) (by decide) (by decide) (by decide) (by decide) (by decide)
    (by decide)
  ⟨h.1, h.2.2.1⟩

/-! ## Sample values stay in range -/

theorem toInt8_inRange (v : Nat) : -128 ≤ toInt8 v ∧ toInt8 v ≤ 127 := by
  unfold toInt8
  have h : v % 2 ^ 8 < 2 ^ 8 := Nat.mod_lt _ (by norm_num)
  split <;> constructor <;> omega

theorem toInt16_inRange (v : Nat) : -32768 ≤ toInt16 v ∧ toInt16 v ≤ 32767 := by
  unfold toInt16
  have h : v % 2 ^ 16 < 2 ^ 16 := Nat.mod_lt _ (by norm_num)
  split <;> constructor <;> omega

theorem toInt32_inRange (v : Nat) : -2147483648 ≤ toInt32 v ∧ toInt32 v ≤ 2147483647 := by
  unfold toInt32
  have h : v % 2 ^ 32 < 2 ^ 32 := Nat.mod_lt _ (by norm_num)
  split <;> constructor <;> omega

theorem tableInRange_allocate (bits channel count : Nat) :
    TableInRange bits (allocate channel count) := by
  intro row hrow v hv
  simp only [allocate, List.mem_map, List.mem_replicate] at hrow
  obtain ⟨_, _, rfl⟩ := hrow
  have hv0 : v = 0 := (List.mem_replicate.1 hv).2
  rw [hv0]
  unfold inRange
  omega

theorem tableInRange_setSample (bits : Nat) (data : List (List Int)) (j i : Nat) (v : Int)
    (hdata : TableInRange bits data) (hv : inRange bits v) :
    TableInRange bits (setSample data j i v) := by
  intro row hrow w hw
  unfold setSample at hrow
  rcases List.mem_or_eq_of_mem_set hrow with h | h
  · exact hdata row h w hw
  · rw [h] at hw
    rcases List.mem_or_eq_of_mem_set hw with h1 | h1
    · rw [List.getD_eq_getElem?_getD] at h1
      cases hj : data[j]? with
      | none => rw [hj] at h1; simp at h1
      | some r =>
        rw [hj] at h1
        exact hdata r (List.getElem?_mem hj) w h1
    · rw [h1]; exact hv

theorem sampleStep_inRange {σ : Type} (rd : Reader σ) (bits i j : Nat) (st : Decode σ)
    (h : TableInRange bits st.data) : TableInRange bits (sampleStep rd bits i j st).1.data := by
  unfold sampleStep
  dsimp only
  split
  · exact h
  · split
    · rename_i hb
      refine tableInRange_setSample _ _ _ _ _ h ?_
      exact ⟨fun _ => toInt8_inRange _, fun h16 => by omega, fun h32 => by omega⟩
    · split
      · rename_i hb
        refine tableInRange_setSample _ _ _ _ _ h ?_
        exact ⟨fun h8 => by omega, fun _ => toInt16_inRange _, fun h32 => by omega⟩
      · split
        · rename_i hb
          refine tableInRange_setSample _ _ _ _ _ h ?_
          exact ⟨fun h8 => by omega, fun h16 => by omega, fun _ => toInt32_inRange _⟩
        · exact h

theorem channelLoop_inRange {σ : Type} (rd : Reader σ) (bits i : Nat) (todo : Nat) :
    ∀ (j : Nat) (st : Decode σ), TableInRange bits st.data →
      TableInRange bits (channelLoop rd bits i todo j st).1.data := by
  induction todo with
  | zero => intro j st h; exact h
  | succ todo ih =>
    intro j st h
    have hs := sampleStep_inRange rd bits i j st h
    unfold channelLoop
    cases hstep : sampleStep rd bits i j st with
    | mk st1 e =>
      rw [hstep] at hs
      cases e with
      | some e => exact hs
      | none => exact ih (j + 1) st1 hs

theorem sampleLoop_inRange {σ : Type} (rd : Reader σ) (bits : Nat) (todo : Nat) :
    ∀ (i : Nat) (st : Decode σ), TableInRange bits st.data →
      TableInRange bits (sampleLoop rd bits todo i st).1.data := by
  induction todo with
  | zero => intro i st h; exact h
  | succ todo ih =>
    intro i st h
    have hs := channelLoop_inRange rd bits i st.data.length 0 st h
    unfold sampleLoop
    cases hstep : channelLoop rd bits i st.data.length 0 st with
    | mk st1 e =>
      rw [hstep] at hs
      cases e with
      | some e => exact hs
      | none => exact ih (i + 1) st1 hs

/-- C7: whatever the reader answers and however the call ends, every value in
the channel table of `ParseData` lies in the native signed range of the bit
depth: in [-128, 127] for 8 bits, [-32768, 32767] for 16 bits and
[-2147483648, 2147483647] for 32 bits. -/
theorem C7_samples_in_native_range {σ : Type} (f : RIFF σ) (rd : Reader σ) (s : σ)
    (row : List Int) (hrow : row ∈ (f.ParseData rd s).data) (v : Int) (hv : v ∈ row) :
    (f.FmtChunk.BitsPerSample = 8 → -128 ≤ v ∧ v ≤ 127) ∧
    (f.FmtChunk.BitsPerSample = 16 → -32768 ≤ v ∧ v ≤ 32767) ∧
    (f.FmtChunk.BitsPerSample = 32 → -2147483648 ≤ v ∧ v ≤ 2147483647) := by
  have key : TableInRange f.FmtChunk.BitsPerSample (f.ParseData rd s).data := by
    unfold RIFF.ParseData
    cases hc : sampleCount f with
    | error p => intro r hr; simp at hr
    | ok count =>
      have hl := sampleLoop_inRange rd f.FmtChunk.BitsPerSample count 0
        ⟨allocate f.FmtChunk.Channel count, List.replicate 4 0, s⟩
        (tableInRange_allocate _ _ _)
      dsimp only
      cases hloop : sampleLoop rd f.FmtChunk.BitsPerSample count 0
        ⟨allocate f.FmtChunk.Channel count, List.replicate 4 0, s⟩ with
      | mk st e =>
        rw [hloop] at hl
        cases e with
        | some e => exact hl
        | none =>
          dsimp only
          cases printFirst st.data <;> exact hl
  exact key row hrow v hv

/-- C7 at one channel of 8 bits, declared size 2 and the payload FF 80: the
first read copies both bytes, the second finds the source empty, and both
samples are decoded from byte 0 of the buffer, FF, as -1, within [-128, 127]. -/
theorem C7_samples_in_native_range_witness :
    ((container (List Byte) 1 8 2).ParseData bufferRead [0xFF, 0x80]).data = [[-1, -1]] ∧
    (-128 ≤ (-1 : Int) ∧ (-1 : Int) ≤ 127) :=
  ⟨by decide,
   (C7_samples_in_native_range (container (List Byte) 1 8 2) bufferRead [0xFF, 0x80]
      [-1, -1] (by decide) (-1) (by decide)).1 rfl⟩

/-! ## Completion of the decode and failure of `Parse` -/

/-- C8 (the code departs from the claim): with two channels of 16 bits, a
declared size of 10 (not a multiple of 4) and a payload of 10 bytes,
`ParseData` does not return: after the loop has filled the two samples per
channel, line 204 slices channel 0 up to 100 and the call aborts. -/
theorem C8_trailing_frame_aborts :
    ((container (List Byte) 2 16 10).ParseData bufferRead
        [1, 0, 2, 0, 0xFF, 0xFF, 4, 0, 5, 0]).outcome = Outcome.aborted Panic.sliceBounds ∧
    ((container (List Byte) 2 16 10).ParseData bufferRead
        [1, 0, 2, 0, 0xFF, 0xFF, 4, 0, 5, 0]).outcome ≠ Outcome.returned none ∧
    ((container (List Byte) 2 16 10).ParseData bufferRead
        [1, 0, 2, 0, 0xFF, 0xFF, 4, 0, 5, 0]).data.map List.length = [2, 2] := by
  decide

/-- C9 as stated fails: on a fresh container, a source whose leading tag is
"RIFX" makes `Parse` fail and leaves the tag it read in `Header.Id`; a source
whose "fmt " tag is wrong makes `Parse` fail in the second stage and leaves the
parsed header and the wrong tag in the container. -/
theorem C9_counterexample :
    ((RIFF.Parse {} bufferRead (specFile.set 3 0x58)).2.1 = some Error.notRIFF ∧
      (RIFF.Parse {} bufferRead (specFile.set 3 0x58)).1.Header
        = { Id := 0x52494658, Size := 0, Format := 0 } ∧
      (RIFF.Parse {} bufferRead (specFile.set 3 0x58)).1 ≠ {}) ∧
    ((RIFF.Parse {} bufferRead (specFile.set 15 0x5f)).2.1 = some Error.notFmt ∧
      (RIFF.Parse {} bufferRead (specFile.set 15 0x5f)).1.Header
        = { Id := 0x52494646, Size := 36, Format := 0x57415645 } ∧
      (RIFF.Parse {} bufferRead (specFile.set 15 0x5f)).1.FmtChunk.ID = 0x666d745f) := by
  decide

/-- C9 amended: when `Parse` returns an error, it is the error of the first
stage that failed; the components of the stages after that one are exactly
what they were before the call, the component of the failing stage is the
value its parser returned with the error, and the components of the stages
before it hold their parsed values. When the data stage is the one that
fails, `DataChunk.Size` is 0 and `DataChunk.Data` is nil. -/
theorem C9_parse_failure_state {σ : Type} (f : RIFF σ) (rd : Reader σ) (s : σ) (e : Error)
    (herr : (f.Parse rd s).2.1 = some e) :
    ((ParseHeader rd s).2.1 = some e ∧
      (f.Parse rd s).1.Header = (ParseHeader rd s).1 ∧
      (f.Parse rd s).1.FmtChunk = f.FmtChunk ∧
      (f.Parse rd s).1.DataChunk = f.DataChunk) ∨
    ((ParseHeader rd s).2.1 = none ∧
      (ParseFmtChunk rd (ParseHeader rd s).2.2).2.1 = some e ∧
      (f.Parse rd s).1.Header = (ParseHeader rd s).1 ∧
      (f.Parse rd s).1.FmtChunk = (ParseFmtChunk rd (ParseHeader rd s).2.2).1 ∧
      (f.Parse rd s).1.DataChunk = f.DataChunk) ∨
    ((ParseHeader rd s).2.1 = none ∧
      (ParseFmtChunk rd (ParseHeader rd s).2.2).2.1 = none ∧
      (ParseDataChunk rd (ParseFmtChunk rd (ParseHeader rd s).2.2).2.2).2.1 = some e ∧
      (f.Parse rd s).1.Header = (ParseHeader rd s).1 ∧
      (f.Parse rd s).1.FmtChunk = (ParseFmtChunk rd (ParseHeader rd s).2.2).1 ∧
      (f.Parse rd s).1.DataChunk
        = (ParseDataChunk rd (ParseFmtChunk rd (ParseHeader rd s).2.2).2.2).1 ∧
      (f.Parse rd s).1.DataChunk.Size = 0 ∧
      (f.Parse rd s).1.DataChunk.Data = none) := by
  unfold RIFF.Parse at herr ⊢
  rcases hH : ParseHeader rd s with ⟨h, eh, s1⟩
  rw [hH] at herr
  cases eh with
  | some e1 =>
    left
    simp only [Option.some.injEq] at herr
    simp [herr]
  | none =>
    right
    dsimp only at herr ⊢
    rcases hF : ParseFmtChunk rd s1 with ⟨fm, ef, s2⟩
    rw [hF] at herr
    cases ef with
    | some e2 =>
      left
      simp only [Option.some.injEq] at herr
      simp [herr]
    | none =>
      right
      dsimp only at herr ⊢
      rcases hD : ParseDataChunk rd s2 with ⟨d, ed, s3⟩
      rw [hD] at herr
      cases ed with
      | none => simp at herr
      | some e3 =>
        simp only [Option.some.injEq] at herr
        have hd : d.Size = 0 ∧ d.Data = none := by
          unfold ParseDataChunk at hD
          dsimp only at hD
          rcases hR : readInto rd s2 (List.replicate 8 0) with ⟨b, er, s4⟩
          rw [hR] at hD
          cases er with
          | some e4 =>
            simp only [Prod.mk.injEq] at hD
            rw [← hD.1]
            exact ⟨rfl, rfl⟩
          | none =>
            dsimp only at hD
            split at hD
            · simp only [Prod.mk.injEq] at hD
              rw [← hD.1]
              exact ⟨rfl, rfl⟩
            · simp at hD
        simp [herr, hd.1, hd.2]

/-- C9 amended, at the specification's example with a wrong "fmt " tag: the
second stage fails, the header keeps its parsed values and the data chunk is
untouched. -/
theorem C9_parse_failure_state_witness :
    (RIFF.Parse {} bufferRead (specFile.set 15 0x5f)).2.1 = some Error.notFmt ∧
    (((ParseHeader bufferRead (specFile.set 15 0x5f)).2.1 = some Error.notFmt ∧
      (RIFF.Parse {} bufferRead (specFile.set 15 0x5f)).1.Header
        = (ParseHeader bufferRead (specFile.set 15 0x5f)).1 ∧
      (RIFF.Parse {} bufferRead (specFile.set 15 0x5f)).1.FmtChunk = {} ∧
      (RIFF.Parse {} bufferRead (specFile.set 15 0x5f)).1.DataChunk = {}) ∨
    ((ParseHeader bufferRead (specFile.set 15 0x5f)).2.1 = none ∧
      (ParseFmtChunk bufferRead (ParseHeader bufferRead (specFile.set 15 0x5f)).2.2).2.1
        = some Error.notFmt ∧
      (RIFF.Parse {} bufferRead (specFile.set 15 0x5f)).1.Header
        = (ParseHeader bufferRead (specFile.set 15 0x5f)).1 ∧
      (RIFF.Parse {} bufferRead (specFile.set 15 0x5f)).1.FmtChunk
        = (ParseFmtChunk bufferRead (ParseHeader bufferRead (specFile.set 15 0x5f)).2.2).1 ∧
      (RIFF.Parse {} bufferRead (specFile.set 15 0x5f)).1.DataChunk = {}) ∨
    ((ParseHeader bufferRead (specFile.set 15 0x5f)).2.1 = none ∧
      (ParseFmtChunk bufferRead (ParseHeader bufferRead (specFile.set 15 0x5f)).2.2).2.1
        = none ∧
      (ParseDataChunk bufferRead (ParseFmtChunk bufferRead
        (ParseHeader bufferRead (specFile.set 15 0x5f)).2.2).2.2).2.1 = some Error.notFmt ∧
      (RIFF.Parse {} bufferRead (specFile.set 15 0x5f)).1.Header
        = (ParseHeader bufferRead (specFile.set 15 0x5f)).1 ∧
      (RIFF.Parse {} bufferRead (specFile.set 15 0x5f)).1.FmtChunk
        = (ParseFmtChunk bufferRead (ParseHeader bufferRead (specFile.set 15 0x5f)).2.2).1 ∧
      (RIFF.Parse {} bufferRead (specFile.set 15 0x5f)).1.DataChunk
        = (ParseDataChunk bufferRead (ParseFmtChunk bufferRead
            (ParseHeader bufferRead (specFile.set 15 0x5f)).2.2).2.2).1 ∧
      (RIFF.Parse {} bufferRead (specFile.set 15 0x5f)).1.DataChunk.Size = 0 ∧
      (RIFF.Parse {} bufferRead (specFile.set 15 0x5f)).1.DataChunk.Data = none)) :=
  ⟨by decide,
   C9_parse_failure_state {} bufferRead (specFile.set 15 0x5f) Error.notFmt (by decide)⟩

/-! ## Read errors during the decode -/

theorem srcAfter_add {σ : Type} (rd : Reader σ) (a b : Nat) :
    ∀ s : σ, srcAfter rd (a + b) s = srcAfter rd b (srcAfter rd a s) := by
  induction a with
  | zero => intro s; simp [srcAfter]
  | succ a ih =>
    intro s
    rw [Nat.add_right_comm]
    simp only [srcAfter]
    exact ih _

theorem errAt_add {σ : Type} (rd : Reader σ) (s : σ) (a m : Nat) :
    errAt rd s (a + m) = errAt rd (srcAfter rd a s) m := by
  unfold errAt
  rw [srcAfter_add]

theorem errAt_succ {σ : Type} (rd : Reader σ) (s : σ) (m : Nat) :
    errAt rd s (m + 1) = errAt rd (rd s 4).next m := rfl

/-- One pass through the loop body when the read reports nil or end-of-stream
and the bit depth is supported: no error, the reader moved by one read. -/
theorem sampleStep_benign {σ : Type} (rd : Reader σ) (bits i j : Nat) (st : Decode σ)
    (hbits : bits = 8 ∨ bits = 16 ∨ bits = 32) (hbuf : st.buf.length = 4)
    (hrd : benign (rd st.src 4).err) :
    ∃ st1, sampleStep rd bits i j st = (st1, none) ∧ st1.src = (rd st.src 4).next ∧
      st1.buf.length = 4 ∧ st1.data.length = st.data.length := by
  have hnb : ¬ ((rd st.src 4).err ≠ none ∧ (rd st.src 4).err ≠ some Error.eof) := by
    rcases hrd with h | h <;> simp [h]
  unfold sampleStep readInto
  rw [hbuf]
  dsimp only
  rw [if_neg hnb]
  have hfill : (fill st.buf (rd st.src 4).bytes).length = 4 := by rw [fill_length, hbuf]
  rcases hbits with h | h | h
  · rw [if_pos h]
    exact ⟨_, rfl, rfl, hfill, setSample_length _ _ _ _⟩
  · rw [if_neg (by omega), if_pos h]
    exact ⟨_, rfl, rfl, hfill, setSample_length _ _ _ _⟩
  · rw [if_neg (by omega), if_neg (by omega), if_pos h]
    exact ⟨_, rfl, rfl, hfill, setSample_length _ _ _ _⟩

/-- One pass through the loop body when the read reports another error. -/
theorem sampleStep_failed {σ : Type} (rd : Reader σ) (bits i j : Nat) (st : Decode σ)
    (hbuf : st.buf.length = 4) (hrd : ¬ benign (rd st.src 4).err) :
    ∃ st1, sampleStep rd bits i j st = (st1, some Error.sampleRead) ∧
      st1.src = (rd st.src 4).next := by
  have hb : (rd st.src 4).err ≠ none ∧ (rd st.src 4).err ≠ some Error.eof :=
    ⟨fun h => hrd (Or.inl h), fun h => hrd (Or.inr h)⟩
  unfold sampleStep readInto
  rw [hbuf]
  dsimp only
  rw [if_pos hb]
  exact ⟨_, rfl, rfl⟩

theorem channelLoop_benign {σ : Type} (rd : Reader σ) (bits i : Nat)
    (hbits : bits = 8 ∨ bits = 16 ∨ bits = 32) (todo : Nat) :
    ∀ (j : Nat) (st : Decode σ), st.buf.length = 4 →
      (∀ m, m < todo → benign (errAt rd st.src m)) →
      ∃ st1, channelLoop rd bits i todo j st = (st1, none) ∧
        st1.src = srcAfter rd todo st.src ∧ st1.buf.length = 4 ∧
        st1.data.length = st.data.length := by
  induction todo with
  | zero => intro j st hbuf _; exact ⟨st, rfl, rfl, hbuf, rfl⟩
  | succ todo ih =>
    intro j st hbuf hall
    obtain ⟨st1, hstep, hsrc, hb1, hd1⟩ :=
      sampleStep_benign rd bits i j st hbits hbuf (hall 0 (by omega))
    have hrest : ∀ m, m < todo → benign (errAt rd st1.src m) := by
      intro m hm
      rw [hsrc, ← errAt_succ]
      exact hall (m + 1) (by omega)
    obtain ⟨st2, hloop, hsrc2, hb2, hd2⟩ := ih (j + 1) st1 hb1 hrest
    refine ⟨st2, ?_, ?_, hb2, by rw [hd2, hd1]⟩
    · unfold channelLoop
      rw [hstep]
      exact hloop
    · rw [hsrc2, hsrc]
      rfl

theorem channelLoop_failed {σ : Type} (rd : Reader σ) (bits i : Nat)
    (hbits : bits = 8 ∨ bits = 16 ∨ bits = 32) (todo : Nat) :
    ∀ (j : Nat) (st : Decode σ) (k : Nat), st.buf.length = 4 → k < todo →
      (∀ m, m < k → benign (errAt rd st.src m)) → ¬ benign (errAt rd st.src k) →
      ∃ st1, channelLoop rd bits i todo j st = (st1, some Error.sampleRead) ∧
        st1.src = srcAfter rd (k + 1) st.src := by
  induction todo with
  | zero => intro j st k _ hk; omega
  | succ todo ih =>
    intro j st k hbuf hk hall hbad
    cases k with
    | zero =>
      obtain ⟨st1, hstep, hsrc⟩ := sampleStep_failed rd bits i j st hbuf hbad
      refine ⟨st1, ?_, hsrc⟩
      unfold channelLoop
      rw [hstep]
    | succ k =>
      obtain ⟨st1, hstep, hsrc, hb1, _⟩ :=
        sampleStep_benign rd bits i j st hbits hbuf (hall 0 (by omega))
      have hrest : ∀ m, m < k → benign (errAt rd st1.src m) := by
        intro m hm
        rw [hsrc, ← errAt_succ]
        exact hall (m + 1) (by omega)
      have hbad1 : ¬ benign (errAt rd st1.src k) := by
        rw [hsrc, ← errAt_succ]
        exact hbad
      obtain ⟨st2, hloop, hsrc2⟩ := ih (j + 1) st1 k hb1 (by omega) hrest hbad1
      refine ⟨st2, ?_, ?_⟩
      · unfold channelLoop
        rw [hstep]
        exact hloop
      · rw [hsrc2, hsrc]
        rfl

theorem sampleLoop_benign {σ : Type} (rd : Reader σ) (bits : Nat)
    (hbits : bits = 8 ∨ bits = 16 ∨ bits = 32) (todo : Nat) :
    ∀ (i : Nat) (st : Decode σ), st.buf.length = 4 →
      (∀ m, m < todo * st.data.length → benign (errAt rd st.src m)) →
      ∃ st1, sampleLoop rd bits todo i st = (st1, none) ∧
        st1.src = srcAfter rd (todo * st.data.length) st.src ∧
        st1.data.length = st.data.length := by
  induction todo with
  | zero =>
    intro i st _ _
    refine ⟨st, rfl, ?_, rfl⟩
    rw [Nat.zero_mul]
    rfl
  | succ todo ih =>
    intro i st hbuf hall
    have hmul : (todo + 1) * st.data.length = st.data.length + todo * st.data.length := by
      rw [Nat.succ_mul, Nat.add_comm]
    obtain ⟨st1, hch, hsrc, hb1, hd1⟩ :=
      channelLoop_benign rd bits i hbits st.data.length 0 st hbuf
        (fun m hm => hall m (by omega))
    have hrest : ∀ m, m < todo * st1.data.length → benign (errAt rd st1.src m) := by
      intro m hm
      rw [hsrc, ← errAt_add]
      rw [hd1] at hm
      exact hall _ (by omega)
    obtain ⟨st2, hloop, hsrc2, hd2⟩ := ih (i + 1) st1 hb1 hrest
    refine ⟨st2, ?_, ?_, by rw [hd2, hd1]⟩
    · unfold sampleLoop
      rw [hch]
      exact hloop
    · rw [hsrc2, hsrc, hd1, hmul, srcAfter_add]

theorem sampleLoop_failed {σ : Type} (rd : Reader σ) (bits : Nat)
    (hbits : bits = 8 ∨ bits = 16 ∨ bits = 32) (todo : Nat) :
    ∀ (i : Nat) (st : Decode σ) (k : Nat), st.buf.length = 4 → k < todo * st.data.length →
      (∀ m, m < k → benign (errAt rd st.src m)) → ¬ benign (errAt rd st.src k) →
      ∃ st1, sampleLoop rd bits todo i st = (st1, some Error.sampleRead) ∧
        st1.src = srcAfter rd (k + 1) st.src := by
  induction todo with
  | zero => intro i st k _ hk; rw [Nat.zero_mul] at hk; omega
  | succ todo ih =>
    intro i st k hbuf hk hall hbad
    have hmul : (todo + 1) * st.data.length = st.data.length + todo * st.data.length := by
      rw [Nat.succ_mul, Nat.add_comm]
    by_cases hlt : k < st.data.length
    · obtain ⟨st1, hch, hsrc⟩ :=
        channelLoop_failed rd bits i hbits st.data.length 0 st k hbuf hlt hall hbad
      refine ⟨st1, ?_, hsrc⟩
      unfold sampleLoop
      rw [hch]
    · obtain ⟨st1, hch, hsrc, hb1, hd1⟩ :=
        channelLoop_benign rd bits i hbits st.data.length 0 st hbuf
          (fun m hm => hall m (by omega))
      obtain ⟨k1, hk1⟩ : ∃ k1, k = st.data.length + k1 := ⟨k - st.data.length, by omega⟩
      have hrest : ∀ m, m < k1 → benign (errAt rd st1.src m) := by
        intro m hm
        rw [hsrc, ← errAt_add]
        exact hall _ (by omega)
      have hbad1 : ¬ benign (errAt rd st1.src k1) := by
        rw [hsrc, ← errAt_add, ← hk1]
        exact hbad
      obtain ⟨st2, hloop, hsrc2⟩ :=
        ih (i + 1) st1 k1 hb1 (by rw [hd1]; omega) hrest hbad1
      refine ⟨st2, ?_, ?_⟩
      · unfold sampleLoop
        rw [hch]
        exact hloop
      · rw [hsrc2, hsrc, hk1, Nat.add_assoc, srcAfter_add rd st.data.length (k1 + 1)]

/-! ## The shape of the channel table -/

theorem shaped_allocate (channel count : Nat) : Shaped count (allocate channel count) := by
  intro row hrow
  simp only [allocate, List.mem_map, List.mem_replicate] at hrow
  obtain ⟨_, _, rfl⟩ := hrow
  exact List.length_replicate _ _

theorem shaped_setSample (count : Nat) (data : List (List Int)) (j i : Nat) (v : Int)
    (hdata : Shaped count data) : Shaped count (setSample data j i v) := by
  intro row hrow
  unfold setSample at hrow
  rcases List.mem_or_eq_of_mem_set hrow with h | h
  · exact hdata row h
  · by_cases hj : j < data.length
    · rw [h, List.length_set, List.getD_eq_getElem?_getD, List.getElem?_eq_getElem hj]
      exact hdata _ (List.getElem_mem hj)
    · rw [List.set_eq_of_length_le (by omega)] at hrow
      exact hdata row hrow

theorem sampleStep_shaped {σ : Type} (rd : Reader σ) (bits i j count : Nat) (st : Decode σ)
    (h : Shaped count st.data) : Shaped count (sampleStep rd bits i j st).1.data := by
  unfold sampleStep
  dsimp only
  split
  · exact h
  · split
    · exact shaped_setSample _ _ _ _ _ h
    · split
      · exact shaped_setSample _ _ _ _ _ h
      · split
        · exact shaped_setSample _ _ _ _ _ h
        · exact h

theorem channelLoop_shaped {σ : Type} (rd : Reader σ) (bits i count : Nat) (todo : Nat) :
    ∀ (j : Nat) (st : Decode σ), Shaped count st.data →
      Shaped count (channelLoop rd bits i todo j st).1.data := by
  induction todo with
  | zero => intro j st h; exact h
  | succ todo ih =>
    intro j st h
    have hs := sampleStep_shaped rd bits i j count st h
    unfold channelLoop
    cases hstep : sampleStep rd bits i j st with
    | mk st1 e =>
      rw [hstep] at hs
      cases e with
      | some e => exact hs
      | none => exact ih (j + 1) st1 hs

theorem sampleLoop_shaped {σ : Type} (rd : Reader σ) (bits count : Nat) (todo : Nat) :
    ∀ (i : Nat) (st : Decode σ), Shaped count st.data →
      Shaped count (sampleLoop rd bits todo i st).1.data := by
  induction todo with
  | zero => intro i st h; exact h
  | succ todo ih =>
    intro i st h
    have hs := channelLoop_shaped rd bits i count st.data.length 0 st h
    unfold sampleLoop
    cases hstep : channelLoop rd bits i st.data.length 0 st with
    | mk st1 e =>
      rw [hstep] at hs
      cases e with
      | some e => exact hs
      | none => exact ih (i + 1) st1 hs

/-- Line 204 on a table of at least one row whose rows have `count` entries. -/
theorem printFirst_shaped (count : Nat) (data : List (List Int)) (hlen : 1 ≤ data.length)
    (h : Shaped count data) :
    printFirst data = if 100 > count then .error Panic.sliceBounds else .ok () := by
  match data, hlen with
  | row :: rest, _ =>
    unfold printFirst
    dsimp only
    rw [h row (List.mem_cons_self _ _)]

theorem benign_bufferRead (src : List Byte) (n : Nat) : benign (bufferRead src n).err := by
  cases src with
  | nil => exact Or.inr rfl
  | cons x xs => exact Or.inl rfl

/-- How the reads decide what `ParseData` returns, with a channel count of at
least 1 and a bit depth of 8, 16 or 32, where `n` is the sample count, so that
the decode issues up to `n * channel_count` reads. (1) If read number `k` is
the first to report an error other than end-of-stream, `ParseData` returns the
sample-read error right after that read, `k + 1` reads in all. (2) If every
read reports nil or end-of-stream, no read ends the loop: it runs through all
`n * channel_count` reads, no error value is returned, and line 204 returns
nil from 100 samples per channel on and aborts below. (3) A byte buffer only
ever reports nil or end-of-stream. -/
theorem ParseData_read_errors {σ : Type} (f : RIFF σ) (rd : Reader σ) (s : σ) (n : Nat)
    (hch : 1 ≤ f.FmtChunk.Channel)
    (hbits : f.FmtChunk.BitsPerSample = 8 ∨ f.FmtChunk.BitsPerSample = 16 ∨
      f.FmtChunk.BitsPerSample = 32)
    (hn : n = f.DataChunk.Size / f.FmtChunk.Channel / (f.FmtChunk.BitsPerSample / 8)) :
    (∀ k, k < n * f.FmtChunk.Channel → (∀ m, m < k → benign (errAt rd s m)) →
      ¬ benign (errAt rd s k) →
      (f.ParseData rd s).outcome = Outcome.returned (some Error.sampleRead) ∧
      Error.sampleRead.text = "fail to parse sample data" ∧
      (f.ParseData rd s).src = srcAfter rd (k + 1) s) ∧
    ((∀ m, m < n * f.FmtChunk.Channel → benign (errAt rd s m)) →
      (∀ e, (f.ParseData rd s).outcome ≠ Outcome.returned (some e)) ∧
      (f.ParseData rd s).outcome =
        (if n < 100 then Outcome.aborted Panic.sliceBounds else Outcome.returned none) ∧
      (f.ParseData rd s).src = srcAfter rd (n * f.FmtChunk.Channel) s) ∧
    (∀ (src : List Byte) (m : Nat), benign (errAt bufferRead src m)) := by
  have hcount : sampleCount f = .ok n := by
    rw [hn]
    exact sampleCount_ok f hch (by omega)
  refine ⟨?_, ?_, fun src m => benign_bufferRead _ _⟩
  · intro k hk hall hbad
    obtain ⟨st1, hloop, hsrc⟩ :=
      sampleLoop_failed rd f.FmtChunk.BitsPerSample hbits n 0
        ⟨allocate f.FmtChunk.Channel n, List.replicate 4 0, s⟩ k (List.length_replicate _ _)
        (by rw [allocate_length]; exact hk) hall hbad
    unfold RIFF.ParseData
    rw [hcount]
    dsimp only
    rw [hloop]
    exact ⟨rfl, rfl, hsrc⟩
  · intro hall
    obtain ⟨st1, hloop, hsrc, hlen⟩ :=
      sampleLoop_benign rd f.FmtChunk.BitsPerSample hbits n 0
        ⟨allocate f.FmtChunk.Channel n, List.replicate 4 0, s⟩ (List.length_replicate _ _)
        (by rw [allocate_length]; exact hall)
    have hshape := sampleLoop_shaped rd f.FmtChunk.BitsPerSample n n 0
      ⟨allocate f.FmtChunk.Channel n, List.replicate 4 0, s⟩ (shaped_allocate _ _)
    rw [hloop] at hshape
    rw [allocate_length] at hlen hsrc
    have hprint := printFirst_shaped n st1.data (by rw [hlen]; exact hch) hshape
    have hrun : f.ParseData rd s =
        ⟨if n < 100 then Outcome.aborted Panic.sliceBounds else Outcome.returned none,
          st1.data, st1.src⟩ := by
      unfold RIFF.ParseData
      rw [hcount]
      dsimp only
      rw [hloop]
      dsimp only
      rw [hprint]
      by_cases h100 : n < 100
      · rw [if_pos h100, if_pos h100]
      · rw [if_neg h100, if_neg h100]
    rw [hrun]
    refine ⟨?_, rfl, hsrc⟩
    intro e
    dsimp only
    split <;> simp

/-- One channel of 8 bits, declared size 3, on a source that answers the first
read with the byte 01, the second with end-of-stream and the third with
another error: the end-of-stream is passed over and the third read makes
`ParseData` return the sample-read error, three reads in all. -/
theorem ParseData_read_errors_example :
    ((container (List (List Byte × Option Error)) 1 8 3).ParseData scriptRead
        [([1], none), ([], some Error.eof), ([], some (Error.source 5)), ([7], none)]).outcome
      = Outcome.returned (some Error.sampleRead) ∧
    ((container (List (List Byte × Option Error)) 1 8 3).ParseData scriptRead
        [([1], none), ([], some Error.eof), ([], some (Error.source 5)), ([7], none)]).src
      = [([7], none)] :=
  have h := (ParseData_read_errors (container (List (List Byte × Option Error)) 1 8 3) scriptRead
    [([1], none), ([], some Error.eof), ([], some (Error.source 5)), ([7], none)] 3
    (by decide) (by decide) (by decide)).1 2 (by decide) (by decide) (by decide)
  ⟨h.1, h.2.2⟩

/-- C10 (the code departs from the claim): with one channel of 32 bits and
declared size 8, on the payload 01 00 00 00, the first read takes the four
bytes and leaves the source exhausted at the boundary after the first sample,
and the second read reports end-of-stream. The decode does not end there
without error: the loop body stores a second sample, decoded from the stale
buffer, and the call then aborts on line 204 instead of returning nil. -/
theorem C10_exhausted_source_aborts :
    errAt bufferRead [1, 0, 0, 0] 0 = none ∧
    srcAfter bufferRead 1 [1, 0, 0, 0] = [] ∧
    errAt bufferRead [1, 0, 0, 0] 1 = some Error.eof ∧
    ((container (List Byte) 1 32 8).ParseData bufferRead [1, 0, 0, 0]).outcome
      = Outcome.aborted Panic.sliceBounds ∧
    ((container (List Byte) 1 32 8).ParseData bufferRead [1, 0, 0, 0]).outcome
      ≠ Outcome.returned none ∧
    ((container (List Byte) 1 32 8).ParseData bufferRead [1, 0, 0, 0]).data = [[1, 1]] := by
  decide

theorem sampleStep_length {σ : Type} (rd : Reader σ) (bits i j : Nat) (st : Decode σ) :
    (sampleStep rd bits i j st).1.data.length = st.data.length := by
  unfold sampleStep
  dsimp only
  split
  · rfl
  · split
    · exact setSample_length _ _ _ _
    · split
      · exact setSample_length _ _ _ _
      · split
        · exact setSample_length _ _ _ _
        · rfl

theorem channelLoop_length {σ : Type} (rd : Reader σ) (bits i : Nat) (todo : Nat) :
    ∀ (j : Nat) (st : Decode σ),
      (channelLoop rd bits i todo j st).1.data.length = st.data.length := by
  induction todo with
  | zero => intro j st; rfl
  | succ todo ih =>
    intro j st
    have hs := sampleStep_length rd bits i j st
    unfold channelLoop
    cases hstep : sampleStep rd bits i j st with
    | mk st1 e =>
      rw [hstep] at hs
      cases e with
      | some e => exact hs
      | none => exact (ih (j + 1) st1).trans hs

theorem sampleLoop_length {σ : Type} (rd : Reader σ) (bits : Nat) (todo : Nat) :
    ∀ (i : Nat) (st : Decode σ),
      (sampleLoop rd bits todo i st).1.data.length = st.data.length := by
  induction todo with
  | zero => intro i st; rfl
  | succ todo ih =>
    intro i st
    have hs := channelLoop_length rd bits i st.data.length 0 st
    unfold sampleLoop
    cases hstep : channelLoop rd bits i st.data.length 0 st with
    | mk st1 e =>
      rw [hstep] at hs
      cases e with
      | some e => exact hs
      | none => exact (ih (i + 1) st1).trans hs

/-- The table `ParseData` leaves behind is the table the loop leaves behind. -/
theorem ParseData_data {σ : Type} (f : RIFF σ) (rd : Reader σ) (s : σ) (n : Nat)
    (hcount : sampleCount f = .ok n) :
    (f.ParseData rd s).data =
      (sampleLoop rd f.FmtChunk.BitsPerSample n 0
        ⟨allocate f.FmtChunk.Channel n, List.replicate 4 0, s⟩).1.data := by
  unfold RIFF.ParseData
  rw [hcount]
  dsimp only
  cases hloop : sampleLoop rd f.FmtChunk.BitsPerSample n 0
    ⟨allocate f.FmtChunk.Channel n, List.replicate 4 0, s⟩ with
  | mk st e =>
    cases e with
    | some e => rfl
    | none =>
      dsimp only
      cases printFirst st.data <;> rfl

/-- C11: with a channel count of at least 1 and a bit depth of at least 8, the
channel table has exactly `channel_count` rows of exactly
`declared_size / channel_count / (bits_per_sample/8)` entries each: as
allocated, after every pass through the loop body, and in the table
`ParseData` leaves behind, for any reader and however the call ends. -/
theorem C11_table_shape {σ : Type} (f : RIFF σ) (rd : Reader σ) (s : σ) (n : Nat)
    (hch : 1 ≤ f.FmtChunk.Channel) (hbits : 8 ≤ f.FmtChunk.BitsPerSample)
    (hn : n = f.DataChunk.Size / f.FmtChunk.Channel / (f.FmtChunk.BitsPerSample / 8)) :
    ((allocate f.FmtChunk.Channel n).length = f.FmtChunk.Channel ∧
      ∀ row ∈ allocate f.FmtChunk.Channel n, row.length = n) ∧
    (∀ (i j : Nat) (st : Decode σ), st.data.length = f.FmtChunk.Channel →
      (∀ row ∈ st.data, row.length = n) →
      (sampleStep rd f.FmtChunk.BitsPerSample i j st).1.data.length = f.FmtChunk.Channel ∧
      ∀ row ∈ (sampleStep rd f.FmtChunk.BitsPerSample i j st).1.data, row.length = n) ∧
    ((f.ParseData rd s).data.length = f.FmtChunk.Channel ∧
      ∀ row ∈ (f.ParseData rd s).data, row.length = n) := by
  have hcount : sampleCount f = .ok n := by
    rw [hn]
    exact sampleCount_ok f hch hbits
  refine ⟨⟨allocate_length _ _, shaped_allocate _ _⟩, ?_, ?_⟩
  · intro i j st hlen hshape
    exact ⟨(sampleStep_length _ _ _ _ _).trans hlen, sampleStep_shaped _ _ _ _ _ _ hshape⟩
  · rw [ParseData_data f rd s n hcount]
    refine ⟨?_, ?_⟩
    · rw [sampleLoop_length]
      exact allocate_length _ _
    · exact sampleLoop_shaped rd f.FmtChunk.BitsPerSample n n 0 _ (shaped_allocate _ _)

/-- C11 at two channels of 16 bits with declared size 9 on an empty source: the
table has 2 rows of 2 entries. -/
theorem C11_table_shape_witness :
    ((container (List Byte) 2 16 9).ParseData bufferRead []).data.length = 2 ∧
    ∀ row ∈ ((container (List Byte) 2 16 9).ParseData bufferRead []).data, row.length = 2 :=
  (C11_table_shape (container (List Byte) 2 16 9) bufferRead [] 2 (by decide) (by decide)
    (by decide)).2.2

/-! ## Bytes consumed by the fixed-size stages -/

/-- C15: on a byte buffer with at least 12, 24 and 8 bytes left, `ParseHeader`,
`ParseFmtChunk` and `ParseDataChunk` leave the source exactly 12, 24 and 8
bytes further on, whether the tag is right or wrong; `ParseDataChunk` so stops
on the first payload byte, and when it succeeds the reader it stores in
`DataChunk.Data` is the source at that position (when it fails `Data` is nil). -/
theorem C15_stage_consumption (src : List Byte) :
    (12 ≤ src.length → (ParseHeader bufferRead src).2.2 = src.drop 12) ∧
    (24 ≤ src.length → (ParseFmtChunk bufferRead src).2.2 = src.drop 24) ∧
    (8 ≤ src.length →
      (ParseDataChunk bufferRead src).2.2 = src.drop 8 ∧
      ((ParseDataChunk bufferRead src).2.1 = none →
        (ParseDataChunk bufferRead src).1.Data = some (src.drop 8)) ∧
      ((ParseDataChunk bufferRead src).2.1 ≠ none →
        (ParseDataChunk bufferRead src).1.Data = none)) := by
  refine ⟨?_, ?_, ?_⟩
  · intro h
    rw [ParseHeader_buffer src h]
    split
    · rfl
    · split <;> rfl
  · intro h
    rw [ParseFmtChunk_buffer src h]
    split <;> rfl
  · intro h
    rw [ParseDataChunk_buffer src h]
    split
    · exact ⟨rfl, fun hc => by simp at hc, fun _ => rfl⟩
    · exact ⟨rfl, fun _ => rfl, fun hc => by simp at hc⟩

/-- C15 on the specification's example: the header stage stops at offset 12,
and the data stage run from offset 36 stops on the payload
01 00 02 00 FF FF 04 00 and hands it back in `Data`. -/
theorem C15_stage_consumption_witness :
    (ParseHeader bufferRead specFile).2.2 = specFile.drop 12 ∧
    (ParseDataChunk bufferRead (specFile.drop 36)).2.2 = [1, 0, 2, 0, 0xFF, 0xFF, 4, 0] ∧
    (ParseDataChunk bufferRead (specFile.drop 36)).1.Data
      = some [1, 0, 2, 0, 0xFF, 0xFF, 4, 0] :=
  ⟨(C15_stage_consumption specFile).1 (by decide),
   ((C15_stage_consumption (specFile.drop 36)).2.2 (by decide)).1,
   ((C15_stage_consumption (specFile.drop 36)).2.2 (by decide)).2.1 (by decide)⟩

/-! ## Division by zero and the slice of line 204 -/

theorem Parse_buffer_ok (f : RIFF (List Byte)) (src : List Byte)
    (hlen : 44 ≤ src.length)
    (hRIFF : slice src 0 4 = tagRIFF) (hWAVE : slice src 8 12 = tagWAVE)
    (hfmt : slice src 12 16 = tagFmt) (hdata : slice src 36 40 = tagData) :
    f.Parse bufferRead src =
      ({ Header := { Id := ID_RIFF, Size := u32LEAt src 4, Format := ID_WAVE },
         FmtChunk := { ID := ID_fmt, Size := u32LEAt src 16, AudioFormat := u16LEAt src 20,
                       Channel := u16LEAt src 22, SampleRate := u32LEAt src 24,
                       ByteRate := u32LEAt src 28, BlockAlign := u16LEAt src 32,
                       BitsPerSample := u16LEAt src 34 },
         DataChunk := { ID := ID_data, Size := u32LEAt src 40, Data := some (src.drop 44) } },
       none, src.drop 44) := by
  unfold RIFF.Parse
  rw [ParseHeader_buffer src (by omega), if_neg (not_not.mpr hRIFF), if_neg (not_not.mpr hWAVE)]
  dsimp only
  rw [ParseFmtChunk_at12 src (by omega), if_neg (not_not.mpr hfmt)]
  dsimp only
  rw [ParseDataChunk_at36 src hlen, if_neg (not_not.mpr hdata)]

theorem sampleCount_error_iff {σ : Type} (f : RIFF σ) :
    sampleCount f = .error Panic.divideByZero ↔
      (f.FmtChunk.Channel = 0 ∨ f.FmtChunk.BitsPerSample < 8) := by
  constructor
  · intro h
    by_contra hc
    rw [sampleCount_ok f (by omega) (by omega)] at h
    exact Except.noConfusion h
  · intro h
    unfold sampleCount goDiv
    by_cases hc : f.FmtChunk.Channel = 0
    · rw [if_pos hc]
    · have hb : f.FmtChunk.BitsPerSample / 8 = 0 := by omega
      rw [if_neg hc]
      dsimp only
      rw [if_pos hb]

theorem ParseData_divideByZero {σ : Type} (f : RIFF σ) (rd : Reader σ) (s : σ)
    (h : f.FmtChunk.Channel = 0 ∨ f.FmtChunk.BitsPerSample < 8) :
    f.ParseData rd s = ⟨Outcome.aborted Panic.divideByZero, [], s⟩ := by
  unfold RIFF.ParseData
  rw [(sampleCount_error_iff f).2 h]

theorem printFirst_ne_divideByZero (data : List (List Int)) :
    printFirst data ≠ .error Panic.divideByZero := by
  unfold printFirst
  split
  · intro h; cases h
  · split <;> intro h <;> cases h

/-- C16: the count of line 173 divides by zero exactly when the channel count
is 0 or the bit depth is below 8. In that case `ParseData` aborts at once, with
an empty table and the reader untouched (no read has been issued, no error is
returned); in every other case it does not abort with a division by zero.
`Parse` performs no check on the two fields: on every byte buffer of at least
44 bytes with the four tags right and such a channel count or bit depth,
`Parse` returns no error and `ParseData` on the parsed container aborts so. -/
theorem C16_divide_by_zero {σ : Type} (f : RIFF σ) (rd : Reader σ) (s : σ) :
    (sampleCount f = .error Panic.divideByZero ↔
      (f.FmtChunk.Channel = 0 ∨ f.FmtChunk.BitsPerSample < 8)) ∧
    ((f.FmtChunk.Channel = 0 ∨ f.FmtChunk.BitsPerSample < 8) →
      f.ParseData rd s = ⟨Outcome.aborted Panic.divideByZero, [], s⟩) ∧
    (¬ (f.FmtChunk.Channel = 0 ∨ f.FmtChunk.BitsPerSample < 8) →
      (f.ParseData rd s).outcome ≠ Outcome.aborted Panic.divideByZero) ∧
    (∀ (g : RIFF (List Byte)) (src : List Byte), 44 ≤ src.length →
      slice src 0 4 = tagRIFF → slice src 8 12 = tagWAVE → slice src 12 16 = tagFmt →
      slice src 36 40 = tagData → (u16LEAt src 22 = 0 ∨ u16LEAt src 34 < 8) →
      (g.Parse bufferRead src).2.1 = none ∧
      (g.Parse bufferRead src).1.ParseData bufferRead (g.Parse bufferRead src).2.2
        = ⟨Outcome.aborted Panic.divideByZero, [], src.drop 44⟩) := by
  refine ⟨sampleCount_error_iff f, ParseData_divideByZero f rd s, ?_, ?_⟩
  · intro h
    have hcount := sampleCount_ok f (by omega) (by omega)
    unfold RIFF.ParseData
    rw [hcount]
    dsimp only
    cases hloop : sampleLoop rd f.FmtChunk.BitsPerSample
      (f.DataChunk.Size / f.FmtChunk.Channel / (f.FmtChunk.BitsPerSample / 8)) 0
      ⟨allocate f.FmtChunk.Channel
        (f.DataChunk.Size / f.FmtChunk.Channel / (f.FmtChunk.BitsPerSample / 8)),
        List.replicate 4 0, s⟩ with
    | mk st e =>
      cases e with
      | some e => intro hc; cases hc
      | none =>
        dsimp only
        have hp := printFirst_ne_divideByZero st.data
        cases hprint : printFirst st.data with
        | error p =>
          intro hc
          dsimp only at hc
          rw [hprint] at hp
          injection hc with hc
          exact hp (by rw [hc])
        | ok u => intro hc; cases hc
  · intro g src hlen h0 h8 h12 h36 hz
    rw [Parse_buffer_ok g src hlen h0 h8 h12 h36]
    exact ⟨rfl, ParseData_divideByZero _ _ _ hz⟩

/-- C16 on the specification's example with its channel count set to 0: `Parse`
accepts the file and `ParseData` aborts with a division by zero before it
reads the payload. -/
theorem C16_divide_by_zero_witness :
    (RIFF.Parse {} bufferRead (specFile.set 22 0)).2.1 = none ∧
    ((RIFF.Parse {} bufferRead (specFile.set 22 0)).1.ParseData bufferRead
        (RIFF.Parse {} bufferRead (specFile.set 22 0)).2.2)
      = ⟨Outcome.aborted Panic.divideByZero, [], [1, 0, 2, 0, 0xFF, 0xFF, 4, 0]⟩ :=
  ⟨by decide,
   (C16_divide_by_zero (RIFF.Parse {} bufferRead (specFile.set 22 0)).1 bufferRead
      [1, 0, 2, 0, 0xFF, 0xFF, 4, 0]).2.1 (Or.inl (by decide))⟩

/-- C17: with a channel count of at least 1 and a bit depth of 8, 16 or 32, once
the decode loop has gone through every sample without error, `ParseData`
returns nil exactly when the sample count is at least 100; below 100 the slice
`data[0][0:100]` of line 204 exceeds the capacity of channel 0 and the call
aborts. On a byte buffer the loop always ends without error, so there the
outcome is decided by the sample count alone. -/
theorem C17_slice_of_first_channel {σ : Type} (f : RIFF σ) (rd : Reader σ) (s : σ) (n : Nat)
    (hch : 1 ≤ f.FmtChunk.Channel)
    (hbits : f.FmtChunk.BitsPerSample = 8 ∨ f.FmtChunk.BitsPerSample = 16 ∨
      f.FmtChunk.BitsPerSample = 32)
    (hn : n = f.DataChunk.Size / f.FmtChunk.Channel / (f.FmtChunk.BitsPerSample / 8)) :
    ((sampleLoop rd f.FmtChunk.BitsPerSample n 0
        ⟨allocate f.FmtChunk.Channel n, List.replicate 4 0, s⟩).2 = none →
      ((f.ParseData rd s).outcome = Outcome.returned none ↔ 100 ≤ n) ∧
      (n < 100 → (f.ParseData rd s).outcome = Outcome.aborted Panic.sliceBounds)) ∧
    (∀ (g : RIFF (List Byte)) (src : List Byte), 1 ≤ g.FmtChunk.Channel →
      (g.FmtChunk.BitsPerSample = 8 ∨ g.FmtChunk.BitsPerSample = 16 ∨
        g.FmtChunk.BitsPerSample = 32) →
      (g.ParseData bufferRead src).outcome =
        if g.DataChunk.Size / g.FmtChunk.Channel / (g.FmtChunk.BitsPerSample / 8) < 100
        then Outcome.aborted Panic.sliceBounds else Outcome.returned none) := by
  have key : ∀ {τ : Type} (g : RIFF τ) (r : Reader τ) (t : τ) (c : Nat),
      1 ≤ g.FmtChunk.Channel → sampleCount g = .ok c →
      (sampleLoop r g.FmtChunk.BitsPerSample c 0
        ⟨allocate g.FmtChunk.Channel c, List.replicate 4 0, t⟩).2 = none →
      (g.ParseData r t).outcome =
        if c < 100 then Outcome.aborted Panic.sliceBounds else Outcome.returned none := by
    intro τ g r t c hc hcount hloop
    have hshape := sampleLoop_shaped r g.FmtChunk.BitsPerSample c c 0
      ⟨allocate g.FmtChunk.Channel c, List.replicate 4 0, t⟩ (shaped_allocate _ _)
    have hlen := sampleLoop_length r g.FmtChunk.BitsPerSample c 0
      ⟨allocate g.FmtChunk.Channel c, List.replicate 4 0, t⟩
    unfold RIFF.ParseData
    rw [hcount]
    dsimp only
    cases hl : sampleLoop r g.FmtChunk.BitsPerSample c 0
      ⟨allocate g.FmtChunk.Channel c, List.replicate 4 0, t⟩ with
    | mk st e =>
      rw [hl] at hloop hshape hlen
      dsimp only at hloop hshape hlen
      rw [allocate_length] at hlen
      rw [hloop]
      dsimp only
      rw [printFirst_shaped c st.data (by rw [hlen]; exact hc) hshape]
      by_cases h100 : c < 100
      · rw [if_pos h100, if_pos h100]
      · rw [if_neg h100, if_neg h100]
  refine ⟨?_, ?_⟩
  · intro hloop
    have hcount : sampleCount f = .ok n := by
      rw [hn]
      exact sampleCount_ok f hch (by omega)
    rw [key f rd s n hch hcount hloop]
    by_cases h100 : n < 100
    · rw [if_pos h100]
      exact ⟨⟨fun h => (by cases h), fun h => (by omega)⟩, fun _ => rfl⟩
    · rw [if_neg h100]
      exact ⟨⟨fun _ => (by omega), fun _ => rfl⟩, fun h => (by omega)⟩
  · intro g src hc hb
    have hcount := sampleCount_ok g hc (by omega)
    obtain ⟨st1, hloop, _, _⟩ :=
      sampleLoop_benign bufferRead g.FmtChunk.BitsPerSample hb
        (g.DataChunk.Size / g.FmtChunk.Channel / (g.FmtChunk.BitsPerSample / 8)) 0
        ⟨allocate g.FmtChunk.Channel
          (g.DataChunk.Size / g.FmtChunk.Channel / (g.FmtChunk.BitsPerSample / 8)),
          List.replicate 4 0, src⟩ (List.length_replicate _ _)
        (fun m _ => benign_bufferRead _ _)
    exact key g bufferRead src _ hc hcount (by rw [hloop])

/-- C17 at one channel of 8 bits: with declared size 100 on an exhausted source
the loop goes through its 100 reads and `ParseData` returns nil; with declared
size 99 it aborts on line 204. -/
theorem C17_slice_of_first_channel_witness :
    ((container (List Byte) 1 8 100).ParseData bufferRead []).outcome = Outcome.returned none ∧
    ((container (List Byte) 1 8 99).ParseData bufferRead []).outcome
      = Outcome.aborted Panic.sliceBounds :=
  ⟨((C17_slice_of_first_channel (container (List Byte) 1 8 100) bufferRead [] 100 (by decide)
      (by decide) (by decide)).1 (by decide)).1.2 (by decide),
   ((C17_slice_of_first_channel (container (List Byte) 1 8 99) bufferRead [] 99 (by decide)
      (by decide) (by decide)).1 (by decide)).2 (by decide)⟩

/-! ## Short sources in the fixed-size stages -/

/-- A byte buffer that is not empty answers a read into `n` zero bytes with no
error; the buffer then holds the bytes read followed by zeros. -/
theorem readInto_buffer_short (src : List Byte) (n : Nat) (hne : src ≠ []) :
    readInto bufferRead src (List.replicate n 0) = ((padZeros n src).take n, none, src.drop n) := by
  have hfill : fill (List.replicate n 0) (src.take n) = (padZeros n src).take n := by
    unfold padZeros
    by_cases hlen : n ≤ src.length
    · rw [fill_zeros _ n (by rw [List.length_take]; omega),
        List.take_append_of_le_length hlen]
    · have htake : src.take n = src := List.take_of_length_le (by omega)
      unfold fill
      rw [htake, List.length_replicate, List.drop_replicate]
  match src, hne with
  | x :: xs, _ =>
    simp only [readInto, bufferRead, List.length_replicate]
    rw [hfill]

theorem padZeros_length (n : Nat) (src : List Byte) : n ≤ (padZeros n src).length := by
  unfold padZeros
  rw [List.length_append, List.length_replicate]
  omega

theorem readInto_buffer_empty (n : Nat) :
    readInto bufferRead [] (List.replicate n 0)
      = (List.replicate n 0, some Error.eof, []) := by
  simp [readInto, bufferRead, fill]

theorem ParseHeader_congr {σ τ : Type} (rd : Reader σ) (s : σ) (rd2 : Reader τ) (t : τ)
    (buf : List Byte) (s1 : σ) (t1 : τ)
    (h1 : readInto rd s (List.replicate 12 0) = (buf, none, s1))
    (h2 : readInto rd2 t (List.replicate 12 0) = (buf, none, t1)) :
    (ParseHeader rd s).1 = (ParseHeader rd2 t).1 ∧
      (ParseHeader rd s).2.1 = (ParseHeader rd2 t).2.1 := by
  unfold ParseHeader
  dsimp only
  rw [h1, h2]
  dsimp only
  split
  · exact ⟨rfl, rfl⟩
  · split <;> exact ⟨rfl, rfl⟩

theorem ParseFmtChunk_congr {σ τ : Type} (rd : Reader σ) (s : σ) (rd2 : Reader τ) (t : τ)
    (buf : List Byte) (s1 : σ) (t1 : τ)
    (h1 : readInto rd s (List.replicate 24 0) = (buf, none, s1))
    (h2 : readInto rd2 t (List.replicate 24 0) = (buf, none, t1)) :
    (ParseFmtChunk rd s).1 = (ParseFmtChunk rd2 t).1 ∧
      (ParseFmtChunk rd s).2.1 = (ParseFmtChunk rd2 t).2.1 := by
  unfold ParseFmtChunk
  dsimp only
  rw [h1, h2]
  dsimp only
  split <;> exact ⟨rfl, rfl⟩

theorem ParseDataChunk_congr {σ τ : Type} (rd : Reader σ) (s : σ) (rd2 : Reader τ) (t : τ)
    (buf : List Byte) (s1 : σ) (t1 : τ)
    (h1 : readInto rd s (List.replicate 8 0) = (buf, none, s1))
    (h2 : readInto rd2 t (List.replicate 8 0) = (buf, none, t1)) :
    (ParseDataChunk rd s).1.ID = (ParseDataChunk rd2 t).1.ID ∧
      (ParseDataChunk rd s).1.Size = (ParseDataChunk rd2 t).1.Size ∧
      (ParseDataChunk rd s).2.1 = (ParseDataChunk rd2 t).2.1 := by
  unfold ParseDataChunk
  dsimp only
  rw [h1, h2]
  dsimp only
  split <;> exact ⟨rfl, rfl, rfl⟩

/-- C19: each of the three stages issues one read and does not look at the
number of bytes it returned. On a byte buffer that holds at least one byte the
read reports no error, so the stage decodes the buffer as if the source had been
filled up with zero bytes: value and error are those of the stage run on the
zero-padded source, and the error is never end-of-stream. A source holding only
"fmt " makes `ParseFmtChunk` succeed with every numeric field 0, a source
holding only "data" makes `ParseDataChunk` succeed with `Size` 0, and only the
empty source makes the stages fail, with end-of-stream and a zero value. -/
theorem C19_short_header_reads (src : List Byte) (hne : src ≠ []) :
    ((ParseHeader bufferRead src).1 = (ParseHeader bufferRead (padZeros 12 src)).1 ∧
      (ParseHeader bufferRead src).2.1 = (ParseHeader bufferRead (padZeros 12 src)).2.1 ∧
      (ParseHeader bufferRead src).2.1 ≠ some Error.eof) ∧
    ((ParseFmtChunk bufferRead src).1 = (ParseFmtChunk bufferRead (padZeros 24 src)).1 ∧
      (ParseFmtChunk bufferRead src).2.1 = (ParseFmtChunk bufferRead (padZeros 24 src)).2.1 ∧
      (ParseFmtChunk bufferRead src).2.1 ≠ some Error.eof) ∧
    ((ParseDataChunk bufferRead src).1.ID = (ParseDataChunk bufferRead (padZeros 8 src)).1.ID ∧
      (ParseDataChunk bufferRead src).1.Size
        = (ParseDataChunk bufferRead (padZeros 8 src)).1.Size ∧
      (ParseDataChunk bufferRead src).2.1 = (ParseDataChunk bufferRead (padZeros 8 src)).2.1 ∧
      (ParseDataChunk bufferRead src).2.1 ≠ some Error.eof) ∧
    ParseFmtChunk bufferRead tagFmt =
      ({ ID := ID_fmt, Size := 0, AudioFormat := 0, Channel := 0, SampleRate := 0,
         ByteRate := 0, BlockAlign := 0, BitsPerSample := 0 }, none, []) ∧
    ParseDataChunk bufferRead tagData = ({ ID := ID_data, Size := 0, Data := some [] }, none, []) ∧
    ParseHeader bufferRead [] = ({}, some Error.eof, []) ∧
    ParseFmtChunk bufferRead [] = ({}, some Error.eof, []) ∧
    ParseDataChunk bufferRead [] = ({}, some Error.eof, []) := by
  have hH := ParseHeader_congr bufferRead src bufferRead (padZeros 12 src) _ _ _
    (readInto_buffer_short src 12 hne)
    (readInto_buffer (padZeros 12 src) 12 (by omega) (padZeros_length _ _))
  have hF := ParseFmtChunk_congr bufferRead src bufferRead (padZeros 24 src) _ _ _
    (readInto_buffer_short src 24 hne)
    (readInto_buffer (padZeros 24 src) 24 (by omega) (padZeros_length _ _))
  have hD := ParseDataChunk_congr bufferRead src bufferRead (padZeros 8 src) _ _ _
    (readInto_buffer_short src 8 hne)
    (readInto_buffer (padZeros 8 src) 8 (by omega) (padZeros_length _ _))
  refine ⟨⟨hH.1, hH.2, ?_⟩, ⟨hF.1, hF.2, ?_⟩, ⟨hD.1, hD.2.1, hD.2.2, ?_⟩,
    by decide, by decide, by decide, by decide, by decide⟩
  · rw [hH.2, ParseHeader_buffer _ (padZeros_length _ _)]
    split
    · intro h; cases h
    · split <;> intro h <;> cases h
  · rw [hF.2, ParseFmtChunk_buffer _ (padZeros_length _ _)]
    split <;> intro h <;> cases h
  · rw [hD.2.2, ParseDataChunk_buffer _ (padZeros_length _ _)]
    split <;> intro h <;> cases h

/-- C19 on the source holding the 5 bytes "RIFF" and 07: `ParseHeader` reports
the wrong "WAVE" tag, not a read error, with the size decoded as 7 from the
byte present and three zeros, and the format tag decoded as 0. -/
theorem C19_short_header_reads_witness :
    ParseHeader bufferRead [0x52, 0x49, 0x46, 0x46, 7]
      = ({ Id := ID_RIFF, Size := 7, Format := 0 }, some Error.notWAVE, []) ∧
    (ParseHeader bufferRead [0x52, 0x49, 0x46, 0x46, 7]).1
      = (ParseHeader bufferRead (padZeros 12 [0x52, 0x49, 0x46, 0x46, 7])).1 :=
  ⟨by decide, (C19_short_header_reads [0x52, 0x49, 0x46, 0x46, 7] (by decide)).1.1⟩

/-! ## Short reads, truncated payloads and bytes consumed by the decode -/

theorem sampleStep_decode {σ : Type} (rd : Reader σ) (bits i j : Nat) (st : Decode σ)
    (hbits : bits = 8 ∨ bits = 16 ∨ bits = 32) (hbuf : st.buf.length = 4)
    (hrd : benign (rd st.src 4).err) :
    sampleStep rd bits i j st =
      (⟨setSample st.data j i (decodeSample bits (fill st.buf (rd st.src 4).bytes)),
        fill st.buf (rd st.src 4).bytes, (rd st.src 4).next⟩, none) := by
  have hnb : ¬ ((rd st.src 4).err ≠ none ∧ (rd st.src 4).err ≠ some Error.eof) := by
    rcases hrd with h | h <;> simp [h]
  unfold sampleStep readInto decodeSample
  rw [hbuf]
  dsimp only
  rw [if_neg hnb]
  rcases hbits with h | h | h
  · rw [if_pos h, if_pos h]
  · rw [if_neg (by omega), if_pos h, if_neg (by omega), if_pos h]
  · rw [if_neg (by omega), if_neg (by omega), if_pos h, if_neg (by omega), if_neg (by omega)]

theorem fill_short (buf got : List Byte) (h : got.length ≤ buf.length) :
    fill buf got = got ++ buf.drop got.length := by
  unfold fill
  rw [List.take_of_length_le]
  rw [List.length_append, List.length_drop]
  omega

/-- C12 as stated fails: a read that returns fewer bytes than requested with a
nil error does not make `ParseData` fail. With one channel of 16 bits and
declared size 4, a source answering with the two bytes 01 02 and then with the
single byte 05 gets both samples stored, the second one, 0x0205, from the
fresh byte 05 and the stale byte 02; with one channel of 8 bits and declared
size 100, a source answering with the single byte 05 and then end-of-stream
makes `ParseData` return nil. -/
theorem C12_counterexample :
    (((container (List (List Byte × Option Error)) 1 16 4).ParseData scriptRead
        [([1, 2], none), ([5], none)]).data = [[513, 517]] ∧
      ((container (List (List Byte × Option Error)) 1 16 4).ParseData scriptRead
        [([1, 2], none), ([5], none)]).outcome ≠ Outcome.returned (some Error.sampleRead)) ∧
    ((container (List (List Byte × Option Error)) 1 8 100).ParseData scriptRead
        [([5], none)]).outcome = Outcome.returned none := by
  decide

/-- C12 amended: with a channel count of at least 1 and a bit depth of 8, 16 or
32, the number of bytes a read returned is not looked at. A read that returns
fewer than 4 bytes and reports nil or end-of-stream makes the loop body store
a sample all the same: the one decoded from the buffer holding the bytes read
followed by the bytes left over from the reads before. `ParseData` returns the
sample-read error only if some read reports an error other than end-of-stream:
if none does, it returns no error. -/
theorem C12_short_read_accepted {σ : Type} (f : RIFF σ) (rd : Reader σ) (s : σ) (n : Nat)
    (hch : 1 ≤ f.FmtChunk.Channel)
    (hbits : f.FmtChunk.BitsPerSample = 8 ∨ f.FmtChunk.BitsPerSample = 16 ∨
      f.FmtChunk.BitsPerSample = 32)
    (hn : n = f.DataChunk.Size / f.FmtChunk.Channel / (f.FmtChunk.BitsPerSample / 8)) :
    (∀ (i j : Nat) (st : Decode σ), st.buf.length = 4 →
      (rd st.src 4).bytes.length < 4 → benign (rd st.src 4).err →
      sampleStep rd f.FmtChunk.BitsPerSample i j st =
        (⟨setSample st.data j i (decodeSample f.FmtChunk.BitsPerSample
            ((rd st.src 4).bytes ++ st.buf.drop (rd st.src 4).bytes.length)),
          (rd st.src 4).bytes ++ st.buf.drop (rd st.src 4).bytes.length,
          (rd st.src 4).next⟩, none)) ∧
    ((∀ m, m < n * f.FmtChunk.Channel → benign (errAt rd s m)) →
      ∀ e, (f.ParseData rd s).outcome ≠ Outcome.returned (some e)) := by
  refine ⟨?_, ?_⟩
  · intro i j st hbuf hshort hrd
    rw [sampleStep_decode rd _ i j st hbits hbuf hrd, fill_short _ _ (by omega)]
  · intro hall e
    have hcount : sampleCount f = .ok n := by
      rw [hn]
      exact sampleCount_ok f hch (by omega)
    obtain ⟨st1, hloop, _, _⟩ :=
      sampleLoop_benign rd f.FmtChunk.BitsPerSample hbits n 0
        ⟨allocate f.FmtChunk.Channel n, List.replicate 4 0, s⟩ (List.length_replicate _ _)
        (by rw [allocate_length]; exact hall)
    unfold RIFF.ParseData
    rw [hcount]
    dsimp only
    rw [hloop]
    dsimp only
    cases printFirst st1.data <;> intro hc <;> cases hc

/-- C12 amended, at one channel of 16 bits on a source that answers a read with
the single byte 05 and a nil error while the buffer holds 01 02 00 00: the
loop body stores 0x0205 = 517. -/
theorem C12_short_read_accepted_witness :
    sampleStep scriptRead 16 1 0 ⟨[[513, 0]], [1, 2, 0, 0], [([5], none)]⟩
      = (⟨[[513, 517]], [5, 2, 0, 0], []⟩, none) :=
  (C12_short_read_accepted (container (List (List Byte × Option Error)) 1 16 4) scriptRead
    [([1, 2], none), ([5], none)] 2 (by decide) (by decide) (by decide)).1 1 0
    ⟨[[513, 0]], [1, 2, 0, 0], [([5], none)]⟩ (by decide) (by decide) (by decide)

/-- C13 (the code departs from the claim): with one channel of 32 bits and
declared size 8, on a payload that ends cleanly after the first sample
(01 00 00 00), the sample that could not be read is not 0: the read reports
end-of-stream, the buffer still holds the bytes of the sample before, and the
loop body decodes them again, so the table is `[[1, 1]]`. -/
theorem C13_truncated_payload_repeats_sample :
    ((container (List Byte) 1 32 8).ParseData bufferRead [1, 0, 0, 0]).data = [[1, 1]] ∧
    entry ((container (List Byte) 1 32 8).ParseData bufferRead [1, 0, 0, 0]).data 0 1 ≠ 0 := by
  decide

/-- C14 (the code departs from the claim): with two channels of 16 bits and
declared size 8, on the 12-byte payload 01 00 02 00 FF FF 04 00 09 09 09 09,
`ParseData` does not stop after 2 * 2 * 2 = 8 bytes: each of its reads takes
4 bytes, the four bytes beyond the declared size are read as well and the
source is left empty. -/
theorem C14_decode_reads_four_bytes_per_sample :
    ((container (List Byte) 2 16 8).ParseData bufferRead
        [1, 0, 2, 0, 0xFF, 0xFF, 4, 0, 9, 9, 9, 9]).src = [] ∧
    ((container (List Byte) 2 16 8).ParseData bufferRead
        [1, 0, 2, 0, 0xFF, 0xFF, 4, 0, 9, 9, 9, 9]).src ≠ [9, 9, 9, 9] ∧
    (bufferRead [1, 0, 2, 0, 0xFF, 0xFF, 4, 0, 9, 9, 9, 9] 4).next
      = [0xFF, 0xFF, 4, 0, 9, 9, 9, 9] := by
  decide

/-! ## The samples of a byte-buffer payload -/

theorem entry_setSample (data : List (List Int)) (j i : Nat) (v : Int) (j1 i1 : Nat)
    (hj : j < data.length) (hi : i < (data.getD j []).length) :
    entry (setSample data j i v) j1 i1 = if j1 = j ∧ i1 = i then v else entry data j1 i1 := by
  unfold entry setSample
  by_cases hjj : j1 = j
  · subst hjj
    rw [List.getD_eq_getElem?_getD (List.set _ _ _), List.getElem?_set_self hj]
    simp only [Option.getD_some, true_and]
    by_cases hii : i1 = i
    · subst hii
      rw [List.getD_eq_getElem?_getD, List.getElem?_set_self hi, if_pos rfl]
      rfl
    · rw [List.getD_eq_getElem?_getD, List.getElem?_set_ne (Ne.symm hii), if_neg hii,
        ← List.getD_eq_getElem?_getD]
  · rw [List.getD_eq_getElem?_getD (List.set _ _ _), List.getElem?_set_ne (Ne.symm hjj),
      ← List.getD_eq_getElem?_getD, if_neg (fun h => hjj h.1)]

theorem getD_length_of_shaped (count : Nat) (data : List (List Int)) (j : Nat)
    (hj : j < data.length) (h : Shaped count data) : (data.getD j []).length = count := by
  rw [List.getD_eq_getElem?_getD, List.getElem?_eq_getElem hj]
  exact h _ (List.getElem_mem hj)

theorem toInt8_eq_signedOf (v : Nat) (h : v < 2 ^ 8) : toInt8 v = signedOf 8 v := by
  unfold toInt8 signedOf
  rw [Nat.mod_eq_of_lt h]

theorem toInt16_eq_signedOf (v : Nat) (h : v < 2 ^ 16) : toInt16 v = signedOf 16 v := by
  unfold toInt16 signedOf
  rw [Nat.mod_eq_of_lt h]

theorem toInt32_eq_signedOf (v : Nat) (h : v < 2 ^ 32) : toInt32 v = signedOf 32 v := by
  unfold toInt32 signedOf
  rw [Nat.mod_eq_of_lt h]

theorem u16LEAt_lt (src : List Byte) (off : Nat) : u16LEAt src off < 2 ^ 16 := by
  have h0 := byteAt_lt src off
  have h1 := byteAt_lt src (off + 1)
  unfold u16LEAt
  omega

theorem u32LEAt_lt (src : List Byte) (off : Nat) : u32LEAt src off < 2 ^ 32 := by
  have h0 := byteAt_lt src off
  have h1 := byteAt_lt src (off + 1)
  have h2 := byteAt_lt src (off + 2)
  have h3 := byteAt_lt src (off + 3)
  unfold u32LEAt
  omega

/-- The switch of lines 189 to 199 on the 4-byte group at offset `off`. -/
theorem decodeSample_group (bits : Nat) (src : List Byte) (off : Nat) :
    decodeSample bits ((src.drop off).take 4) = signedLEAt bits src off := by
  have hs : (src.drop off).take 4 = slice src off (off + 4) := by
    unfold slice
    rw [Nat.add_sub_cancel_left]
  rw [hs]
  unfold decodeSample signedLEAt
  rw [byteAt_slice _ _ _ 0 (by omega), leUint16_slice _ _ _ (by omega),
    leUint32_slice _ _ _ (by omega), Nat.add_zero,
    toInt8_eq_signedOf _ (by have := byteAt_lt src off; omega),
    toInt16_eq_signedOf _ (u16LEAt_lt _ _), toInt32_eq_signedOf _ (u32LEAt_lt _ _)]

theorem bufferRead_group (src : List Byte) (off : Nat) (h : off + 4 ≤ src.length) :
    bufferRead (src.drop off) 4 = ⟨(src.drop off).take 4, none, src.drop (off + 4)⟩ := by
  have hl : (src.drop off).length = src.length - off := List.length_drop _ _
  cases hd : src.drop off with
  | nil => rw [hd] at hl; simp at hl; omega
  | cons x xs =>
    unfold bufferRead
    dsimp only
    rw [← hd, List.drop_drop]

theorem fill_group (buf : List Byte) (src : List Byte) (off : Nat) (hbuf : buf.length = 4)
    (h : off + 4 ≤ src.length) : fill buf ((src.drop off).take 4) = (src.drop off).take 4 := by
  have hl : ((src.drop off).take 4).length = 4 := by
    rw [List.length_take, List.length_drop]
    omega
  rw [fill_short _ _ (by omega), hl, ← hbuf, List.drop_length, List.append_nil]

/-- One pass through the loop body on a byte buffer with a whole 4-byte group
left at offset `off`. -/
theorem sampleStep_buffer (bits i j : Nat) (src : List Byte) (off : Nat)
    (st : Decode (List Byte)) (hbits : bits = 8 ∨ bits = 16 ∨ bits = 32)
    (hbuf : st.buf.length = 4) (hsrc : st.src = src.drop off) (h : off + 4 ≤ src.length) :
    sampleStep bufferRead bits i j st =
      (⟨setSample st.data j i (signedLEAt bits src off), (src.drop off).take 4,
        src.drop (off + 4)⟩, none) := by
  have hread := bufferRead_group src off h
  rw [sampleStep_decode bufferRead bits i j st hbits hbuf
    (by rw [hsrc, hread]; exact Or.inl rfl)]
  rw [hsrc, hread]
  dsimp only
  rw [fill_group _ _ _ hbuf h, decodeSample_group]

/-- The inner loop on a byte buffer that still holds the groups of row `i`:
channels `j` to `ch - 1` of row `i` receive their groups, all other entries
keep their value. -/
theorem channelLoop_buffer (bits ch n i : Nat) (src : List Byte)
    (hbits : bits = 8 ∨ bits = 16 ∨ bits = 32) (hi : i < n)
    (hlen : 4 * (i * ch + ch) ≤ src.length) (todo : Nat) :
    ∀ (j : Nat) (st : Decode (List Byte)), j + todo = ch →
      st.src = src.drop (4 * (i * ch + j)) → st.buf.length = 4 → st.data.length = ch →
      Shaped n st.data →
      ∃ st1, channelLoop bufferRead bits i todo j st = (st1, none) ∧
        st1.src = src.drop (4 * (i * ch + ch)) ∧ st1.buf.length = 4 ∧
        st1.data.length = ch ∧ Shaped n st1.data ∧
        ∀ i1 j1, entry st1.data j1 i1 =
          if i1 = i ∧ j ≤ j1 ∧ j1 < ch then signedLEAt bits src (4 * (i1 * ch + j1))
          else entry st.data j1 i1 := by
  induction todo with
  | zero =>
    intro j st hj hsrc hbuf hdl hshape
    have hjc : j = ch := by omega
    refine ⟨st, rfl, by rw [hsrc, hjc], hbuf, hdl, hshape, ?_⟩
    intro i1 j1
    rw [if_neg (by omega)]
  | succ todo ih =>
    intro j st hj hsrc hbuf hdl hshape
    have hstep := sampleStep_buffer bits i j src (4 * (i * ch + j)) st hbits hbuf hsrc
      (by omega)
    have hl2 : ((src.drop (4 * (i * ch + j))).take 4).length = 4 := by
      rw [List.length_take, List.length_drop]
      omega
    obtain ⟨st2, hloop, hsrc2, hbuf2, hdl2, hshape2, hent2⟩ :=
      ih (j + 1) ⟨setSample st.data j i (signedLEAt bits src (4 * (i * ch + j))),
          (src.drop (4 * (i * ch + j))).take 4, src.drop (4 * (i * ch + j) + 4)⟩
        (by omega) (by dsimp only; congr 1) hl2
        (by dsimp only; rw [setSample_length]; exact hdl)
        (shaped_setSample _ _ _ _ _ hshape)
    refine ⟨st2, ?_, hsrc2, hbuf2, hdl2, hshape2, ?_⟩
    · unfold channelLoop
      rw [hstep]
      exact hloop
    · intro i1 j1
      rw [hent2 i1 j1]
      dsimp only
      rw [entry_setSample _ _ _ _ _ _ (by omega)
        (by rw [getD_length_of_shaped n _ _ (by omega) hshape]; exact hi)]
      by_cases h1 : i1 = i ∧ j + 1 ≤ j1 ∧ j1 < ch
      · rw [if_pos h1, if_pos ⟨h1.1, by omega, h1.2.2⟩]
      · rw [if_neg h1]
        by_cases h2 : j1 = j ∧ i1 = i
        · rw [if_pos h2, if_pos ⟨h2.2, by omega, by omega⟩, h2.1, h2.2]
        · rw [if_neg h2, if_neg (by omega)]

/-- The outer loop on a byte buffer that still holds the groups of rows `i` to
`n - 1`: these rows receive their groups, all other entries keep their value. -/
theorem sampleLoop_buffer (bits ch n : Nat) (src : List Byte)
    (hbits : bits = 8 ∨ bits = 16 ∨ bits = 32)
    (hlen : 4 * (n * ch) ≤ src.length) (todo : Nat) :
    ∀ (i : Nat) (st : Decode (List Byte)), i + todo = n →
      st.src = src.drop (4 * (i * ch)) → st.buf.length = 4 → st.data.length = ch →
      Shaped n st.data →
      ∃ st1, sampleLoop bufferRead bits todo i st = (st1, none) ∧
        st1.src = src.drop (4 * (n * ch)) ∧
        ∀ i1 j1, entry st1.data j1 i1 =
          if i ≤ i1 ∧ i1 < n ∧ j1 < ch then signedLEAt bits src (4 * (i1 * ch + j1))
          else entry st.data j1 i1 := by
  induction todo with
  | zero =>
    intro i st hi hsrc _ _ _
    have hin : i = n := by omega
    refine ⟨st, rfl, by rw [hsrc, hin], ?_⟩
    intro i1 j1
    rw [if_neg (by omega)]
  | succ todo ih =>
    intro i st hi hsrc hbuf hdl hshape
    have hrow : i * ch + ch ≤ n * ch := by
      have h := Nat.mul_le_mul_right ch (show i + 1 ≤ n by omega)
      rw [Nat.succ_mul] at h
      exact h
    obtain ⟨st1, hch, hsrc1, hbuf1, hdl1, hshape1, hent1⟩ :=
      channelLoop_buffer bits ch n i src hbits (by omega) (by omega) ch 0 st (by omega)
        (by rw [hsrc, Nat.add_zero]) hbuf hdl hshape
    obtain ⟨st2, hloop, hsrc2, hent2⟩ :=
      ih (i + 1) st1 (by omega) (by rw [hsrc1, Nat.succ_mul i ch]) hbuf1 hdl1 hshape1
    refine ⟨st2, ?_, hsrc2, ?_⟩
    · unfold sampleLoop
      rw [hdl, hch]
      exact hloop
    · intro i1 j1
      rw [hent2 i1 j1, hent1 i1 j1]
      by_cases h1 : i + 1 ≤ i1 ∧ i1 < n ∧ j1 < ch
      · rw [if_pos h1, if_pos ⟨by omega, h1.2.1, h1.2.2⟩]
      · rw [if_neg h1]
        by_cases h2 : i1 = i ∧ 0 ≤ j1 ∧ j1 < ch
        · rw [if_pos h2, if_pos ⟨by omega, by omega, h2.2.2⟩]
        · rw [if_neg h2, if_neg (by omega)]

/-- When the loop ends without error, `ParseData` leaves the loop's table and
reader behind. -/
theorem ParseData_of_loop {σ : Type} (f : RIFF σ) (rd : Reader σ) (s : σ) (n : Nat)
    (st1 : Decode σ) (hcount : sampleCount f = .ok n)
    (hloop : sampleLoop rd f.FmtChunk.BitsPerSample n 0
      ⟨allocate f.FmtChunk.Channel n, List.replicate 4 0, s⟩ = (st1, none)) :
    (f.ParseData rd s).data = st1.data ∧ (f.ParseData rd s).src = st1.src := by
  unfold RIFF.ParseData
  rw [hcount]
  dsimp only
  rw [hloop]
  dsimp only
  cases printFirst st1.data <;> exact ⟨rfl, rfl⟩

/-- C18: with a channel count of at least 1, a bit depth of 8, 16 or 32 and a
byte-buffer payload of at least `4 * sample_count * channel_count` bytes,
sample `i` of channel `j` in the table of `ParseData` is the signed
little-endian integer formed from the first `bits_per_sample/8` bytes at
payload offset `4 * (i * channel_count + j)`, and the source is left
`4 * sample_count * channel_count` bytes further on: each read takes 4 bytes,
whatever the bit depth. -/
theorem C18_samples_from_four_byte_groups (f : RIFF (List Byte)) (src : List Byte) (n : Nat)
    (hch : 1 ≤ f.FmtChunk.Channel)
    (hbits : f.FmtChunk.BitsPerSample = 8 ∨ f.FmtChunk.BitsPerSample = 16 ∨
      f.FmtChunk.BitsPerSample = 32)
    (hn : n = f.DataChunk.Size / f.FmtChunk.Channel / (f.FmtChunk.BitsPerSample / 8))
    (hlen : 4 * (n * f.FmtChunk.Channel) ≤ src.length) :
    (∀ i j, i < n → j < f.FmtChunk.Channel →
      entry (f.ParseData bufferRead src).data j i
        = signedLEAt f.FmtChunk.BitsPerSample src (4 * (i * f.FmtChunk.Channel + j))) ∧
    (f.ParseData bufferRead src).src = src.drop (4 * (n * f.FmtChunk.Channel)) := by
  have hcount : sampleCount f = .ok n := by
    rw [hn]
    exact sampleCount_ok f hch (by omega)
  obtain ⟨st1, hloop, hsrc, hent⟩ :=
    sampleLoop_buffer f.FmtChunk.BitsPerSample f.FmtChunk.Channel n src hbits hlen n 0
      ⟨allocate f.FmtChunk.Channel n, List.replicate 4 0, src⟩ (by omega)
      (by rw [Nat.zero_mul]; rfl) (List.length_replicate _ _) (allocate_length _ _)
      (shaped_allocate _ _)
  obtain ⟨hdata, hs⟩ := ParseData_of_loop f bufferRead src n st1 hcount hloop
  rw [hdata, hs]
  refine ⟨?_, hsrc⟩
  intro i j hi hj
  rw [hent i j, if_pos ⟨by omega, hi, hj⟩]

/-- C18 at two channels of 16 bits with declared size 8 and the 16-byte payload
01 00 AA AA, 02 00 AA AA, FF FF AA AA, 04 00 AA AA: sample 1 of channel 0 is
the -1 found at offset 4 * (1 * 2 + 0) = 8, and the 16 bytes are used up. -/
theorem C18_samples_from_four_byte_groups_witness :
    entry ((container (List Byte) 2 16 8).ParseData bufferRead
        [1, 0, 0xAA, 0xAA, 2, 0, 0xAA, 0xAA, 0xFF, 0xFF, 0xAA, 0xAA, 4, 0, 0xAA, 0xAA]).data 0 1
      = -1 ∧
    ((container (List Byte) 2 16 8).ParseData bufferRead
        [1, 0, 0xAA, 0xAA, 2, 0, 0xAA, 0xAA, 0xFF, 0xFF, 0xAA, 0xAA, 4, 0, 0xAA, 0xAA]).src
      = [] :=
  have h := C18_samples_from_four_byte_groups (container (List Byte) 2 16 8)
    [1, 0, 0xAA, 0xAA, 2, 0, 0xAA, 0xAA, 0xFF, 0xFF, 0xAA, 0xAA, 4, 0, 0xAA, 0xAA] 2
    (by decide) (by decide) (by decide) (by decide)
  ⟨(h.1 1 0 (by decide) (by decide)).trans (by decide), h.2.trans (by decide)⟩

end Wav
